import Mathlib

/-!
Verification of the tabular filter/transform core of `dataapp.py`
(a pandas/streamlit data-exploration app) against its natural-language
specification.

The DataFrame is modelled shallowly: a `Table` is a header (list of column
names) together with row-major cell data.  Cells carry the value classes the
app actually produces: strings, numbers (exact rationals standing for the
program's int64/float64 values), day-precision timestamps (produced by
`pd.to_datetime`) and missing values (NaN/NaT).
-/

/-- A cell of a DataFrame: a string, a number (int64/float64 modelled as an
exact rational), a timestamp (day precision, as produced by `pd.to_datetime`
on date strings), or a missing value (NaN/NaT). -/
inductive Cell where
  | text (s : String)
  | num (q : ℚ)
  | dval (y : Int) (m : Nat) (d : Nat)
  | missing
deriving DecidableEq

/-- Rendering a cell as text, as `Series.astype(str)` does: strings are kept,
integers print without a fractional part, NaN prints as "nan". -/
def Cell.render : Cell → String
  | .text s => s
  | .num q => if q.den = 1 then toString q.num else toString q
  | .dval y m d => toString y ++ "-" ++ toString m ++ "-" ++ toString d
  | .missing => "nan"

/-- True for cells that are the number 0; `df != 0` in `load_data` is False
exactly on such cells (strings and NaN compare unequal to 0 in pandas). -/
def Cell.isZero : Cell → Bool
  | .num q => q = 0
  | _ => false

/-- True for missing cells (NaN/NaT). -/
def Cell.isMissing : Cell → Bool
  | .missing => true
  | _ => false

/-- A pandas DataFrame: named columns over row-major cell data.  Well-formed
tables have every row of length `cols.length`. -/
structure Table where
  cols : List String
  rows : List (List Cell)
deriving DecidableEq

/-- The `pd.DataFrame()` value returned by the app's error/empty paths. -/
def Table.emptyDF : Table := ⟨[], []⟩

/-- The pandas `DataFrame.empty` predicate: true iff some axis has length 0. -/
def Table.isEmpty (t : Table) : Bool := t.rows.isEmpty || t.cols.isEmpty

/-- The cell of `row` in column `c`, given the table's header.  `df[c]` raises
`KeyError` when `c` is not a column; theorems therefore carry the hypothesis
that every referenced column exists, and this total model returns `missing`
outside that regime. -/
def cellAt (cols : List String) (row : List Cell) (c : String) : Cell :=
  match cols.indexOf? c with
  | some i => row.getD i Cell.missing
  | none => Cell.missing

/-- One filter step's row predicate: `df[column].astype(str).isin(values)`
applied to a single row. -/
def rowMatches (cols : List String) (row : List Cell) (p : String × List String) : Bool :=
  p.2.contains (cellAt cols row p.1).render

/-- `filter_data` from `dataapp.py`: if the frame is non-empty, apply each
`(column, values)` constraint in order by boolean-mask selection and report
(together with the resulting frame) whether the "No data found for the given
filter conditions" warning fires (the result became empty); an empty input
frame short-circuits to a fresh `pd.DataFrame()` with no warning. -/
def filter_data (df : Table) (fc : List (String × List String)) : Table × Bool :=
  if !df.isEmpty then
    let rows := fc.foldl (fun rs p => rs.filter (fun r => rowMatches df.cols r p)) df.rows
    let res : Table := ⟨df.cols, rows⟩
    (res, res.isEmpty)
  else (Table.emptyDF, false)

/-- Sequential boolean-mask filtering equals one filter by the conjunction of
all constraints. -/
theorem foldl_filter_eq_filter_all (cols : List String) (fc : List (String × List String))
    (rs : List (List Cell)) :
    fc.foldl (fun rs p => rs.filter (fun r => rowMatches cols r p)) rs
      = rs.filter (fun r => fc.all (fun p => rowMatches cols r p)) := by
  induction fc generalizing rs with
  | nil => simp
  | cons p ps ih =>
    rw [List.foldl_cons, ih, List.filter_filter]
    simp only [List.all_cons]
    congr 1
    funext r
    rw [Bool.and_comm]

/-- Boolean `List.all` is invariant under permutation of the list. -/
theorem all_of_perm {α : Type} {l₁ l₂ : List α} (h : l₁.Perm l₂) (f : α → Bool) :
    l₁.all f = l₂.all f := by
  cases hb : l₂.all f with
  | true =>
    rw [List.all_eq_true] at hb ⊢
    exact fun x hx => hb x (h.mem_iff.mp hx)
  | false =>
    rw [Bool.eq_false_iff]
    intro hc
    rw [List.all_eq_true] at hc
    rw [Bool.eq_false_iff] at hb
    exact hb (List.all_eq_true.mpr fun x hx => hc x (h.mem_iff.mpr hx))

/-- C1 (amended): for every table with at least one row and one column, and
every FilterSpec naming only existing columns, `filter_data` keeps the column
header, retains exactly the rows whose text-rendered value in each constrained
column lies in that column's allowed set (in input order, so the filtered row
count is at most the input row count), and an empty FilterSpec returns the
table unchanged.  (The zero-row/zero-column case is excluded: there the code
returns a fresh `pd.DataFrame()`, see the counterexample.) -/
theorem filter_data_spec (t : Table) (fc : List (String × List String))
    (hcols : ∀ p ∈ fc, p.1 ∈ t.cols) (hne : t.isEmpty = false) :
    ((filter_data t fc).1.cols = t.cols
        ∧ (filter_data t fc).1.rows
            = t.rows.filter (fun r => fc.all (fun p => rowMatches t.cols r p))
        ∧ (filter_data t fc).1.rows.length ≤ t.rows.length)
      ∧ (fc = [] → (filter_data t fc).1 = t) := by
  have h1 : filter_data t fc
      = (⟨t.cols, t.rows.filter (fun r => fc.all (fun p => rowMatches t.cols r p))⟩,
          (Table.mk t.cols
            (t.rows.filter (fun r => fc.all (fun p => rowMatches t.cols r p)))).isEmpty) := by
    simp only [filter_data, hne, Bool.not_false, if_true]
    rw [foldl_filter_eq_filter_all]
  rw [h1]
  refine ⟨⟨rfl, rfl, List.length_filter_le _ _⟩, ?_⟩
  rintro rfl
  simp

/-- C1 counterexample: on a zero-row table that still has a column, the empty
FilterSpec does not return the table unchanged — the column header is lost. -/
theorem filter_data_empty_table_counterexample :
    (filter_data ⟨["a"], []⟩ []).1 ≠ (⟨["a"], []⟩ : Table) := by decide

/-- Witness for C1 at a concrete two-row table and one-constraint spec. -/
theorem filter_data_spec_witness :
    ((filter_data ⟨["a"], [[Cell.text "x"], [Cell.text "y"]]⟩ [("a", ["x"])]).1.cols
          = (Table.mk ["a"] [[Cell.text "x"], [Cell.text "y"]]).cols
        ∧ (filter_data ⟨["a"], [[Cell.text "x"], [Cell.text "y"]]⟩ [("a", ["x"])]).1.rows
            = (Table.mk ["a"] [[Cell.text "x"], [Cell.text "y"]]).rows.filter
                (fun r => [("a", ["x"])].all
                  (fun p => rowMatches (Table.mk ["a"] [[Cell.text "x"], [Cell.text "y"]]).cols r p))
        ∧ (filter_data ⟨["a"], [[Cell.text "x"], [Cell.text "y"]]⟩ [("a", ["x"])]).1.rows.length
            ≤ (Table.mk ["a"] [[Cell.text "x"], [Cell.text "y"]]).rows.length)
      ∧ ([("a", ["x"])] = ([] : List (String × List String))
          → (filter_data ⟨["a"], [[Cell.text "x"], [Cell.text "y"]]⟩ [("a", ["x"])]).1
              = Table.mk ["a"] [[Cell.text "x"], [Cell.text "y"]]) :=
  filter_data_spec ⟨["a"], [[Cell.text "x"], [Cell.text "y"]]⟩ [("a", ["x"])]
    (by decide) (by decide)

/-- C2 (amended): filtering is order-independent — permuting the FilterSpec's
entries yields the same result and the same warning — and idempotent whenever
the filtered result still has at least one row.  (When a non-empty table is
filtered down to zero rows, re-applying the same spec additionally drops the
column names, see the counterexample.) -/
theorem filter_data_comm_and_idem (t : Table) (fc₁ fc₂ : List (String × List String))
    (hperm : fc₁.Perm fc₂) (hcols : ∀ p ∈ fc₁, p.1 ∈ t.cols) :
    filter_data t fc₁ = filter_data t fc₂
      ∧ ((filter_data t fc₁).1.rows ≠ []
          → filter_data (filter_data t fc₁).1 fc₁ = filter_data t fc₁) := by
  constructor
  · by_cases ht : t.isEmpty
    · simp [filter_data, ht]
    · simp only [Bool.not_eq_true] at ht
      simp only [filter_data, ht, Bool.not_false, if_true]
      rw [foldl_filter_eq_filter_all, foldl_filter_eq_filter_all]
      rw [List.filter_congr (fun r _ => all_of_perm hperm (fun p => rowMatches t.cols r p))]
  · intro hrow
    by_cases ht : t.isEmpty
    · exfalso
      apply hrow
      simp [filter_data, ht, Table.emptyDF]
    · simp only [Bool.not_eq_true] at ht
      have hcolne : t.cols.isEmpty = false := by
        simp only [Table.isEmpty, Bool.or_eq_false_iff] at ht
        exact ht.2
      have h1 : filter_data t fc₁
          = (⟨t.cols, t.rows.filter (fun r => fc₁.all (fun p => rowMatches t.cols r p))⟩,
              (Table.mk t.cols
                (t.rows.filter (fun r => fc₁.all (fun p => rowMatches t.cols r p)))).isEmpty) := by
        simp only [filter_data, ht, Bool.not_false, if_true]
        rw [foldl_filter_eq_filter_all]
      rw [h1] at hrow
      have hrow' : t.rows.filter (fun r => fc₁.all (fun p => rowMatches t.cols r p)) ≠ [] := hrow
      have hne1 : (Table.mk t.cols
          (t.rows.filter (fun r => fc₁.all (fun p => rowMatches t.cols r p)))).isEmpty
            = false := by
        simp only [Table.isEmpty, Bool.or_eq_false_iff]
        exact ⟨by simpa using hrow', hcolne⟩
      have hff : (t.rows.filter (fun r => fc₁.all (fun p => rowMatches t.cols r p))).filter
            (fun r => fc₁.all (fun p => rowMatches t.cols r p))
          = t.rows.filter (fun r => fc₁.all (fun p => rowMatches t.cols r p)) := by
        rw [List.filter_filter]
        exact List.filter_congr fun a _ => Bool.and_self _
      have h2 : filter_data
            ⟨t.cols, t.rows.filter (fun r => fc₁.all (fun p => rowMatches t.cols r p))⟩ fc₁
          = (⟨t.cols, t.rows.filter (fun r => fc₁.all (fun p => rowMatches t.cols r p))⟩,
              false) := by
        simp only [filter_data, hne1, Bool.not_false, if_true]
        rw [foldl_filter_eq_filter_all, hff, hne1]
      calc filter_data (filter_data t fc₁).1 fc₁
          = filter_data
              ⟨t.cols, t.rows.filter (fun r => fc₁.all (fun p => rowMatches t.cols r p))⟩ fc₁ := by
            rw [h1]
        _ = (⟨t.cols, t.rows.filter (fun r => fc₁.all (fun p => rowMatches t.cols r p))⟩,
              false) := h2
        _ = filter_data t fc₁ := by rw [h1, hne1]

/-- C2 counterexample: idempotence fails as stated — filtering a one-row table
down to zero rows and filtering again with the same spec changes the result
(the second pass returns a fresh `pd.DataFrame()` without the column). -/
theorem filter_data_idem_counterexample :
    filter_data (filter_data ⟨["a"], [[Cell.text "x"]]⟩ [("a", [])]).1 [("a", [])]
      ≠ filter_data ⟨["a"], [[Cell.text "x"]]⟩ [("a", [])] := by decide

/-- Witness for C2 at a concrete table and a two-entry spec and its swap. -/
theorem filter_data_comm_and_idem_witness :
    filter_data ⟨["a", "b"], [[Cell.text "x", Cell.text "u"], [Cell.text "y", Cell.text "v"]]⟩
        [("a", ["x", "y"]), ("b", ["u"])]
      = filter_data ⟨["a", "b"], [[Cell.text "x", Cell.text "u"], [Cell.text "y", Cell.text "v"]]⟩
        [("b", ["u"]), ("a", ["x", "y"])]
      ∧ ((filter_data ⟨["a", "b"], [[Cell.text "x", Cell.text "u"], [Cell.text "y", Cell.text "v"]]⟩
            [("a", ["x", "y"]), ("b", ["u"])]).1.rows ≠ []
          → filter_data
              (filter_data ⟨["a", "b"], [[Cell.text "x", Cell.text "u"], [Cell.text "y", Cell.text "v"]]⟩
                [("a", ["x", "y"]), ("b", ["u"])]).1 [("a", ["x", "y"]), ("b", ["u"])]
            = filter_data ⟨["a", "b"], [[Cell.text "x", Cell.text "u"], [Cell.text "y", Cell.text "v"]]⟩
              [("a", ["x", "y"]), ("b", ["u"])]) :=
  filter_data_comm_and_idem
    ⟨["a", "b"], [[Cell.text "x", Cell.text "u"], [Cell.text "y", Cell.text "v"]]⟩
    [("a", ["x", "y"]), ("b", ["u"])] [("b", ["u"]), ("a", ["x", "y"])]
    (by decide) (by decide)

/-- C10 (confirmed): on a zero-row table, `filter_data` returns a fresh empty
`pd.DataFrame()` — no rows, no columns, the input's column names are not
preserved — and the "no rows matched" warning is not issued (flag `false`),
whatever the FilterSpec is. -/
theorem filter_data_zero_rows (t : Table) (fc : List (String × List String))
    (h : t.rows = []) :
    filter_data t fc = (Table.emptyDF, false) ∧ Table.emptyDF.cols = [] := by
  have ht : t.isEmpty = true := by simp [Table.isEmpty, h]
  exact ⟨by simp [filter_data, ht], rfl⟩

/-- Witness for C10 at a zero-row table that has a column, with a non-empty
FilterSpec. -/
theorem filter_data_zero_rows_witness :
    filter_data ⟨["a"], []⟩ [("a", ["x"])] = (Table.emptyDF, false)
      ∧ Table.emptyDF.cols = [] :=
  filter_data_zero_rows ⟨["a"], []⟩ [("a", ["x"])] rfl

/-- Splitting a character list at every occurrence of a separator, the
semantics of `str.split`/`String.splitOn` used by the CSV reader; written
structurally so the kernel can evaluate it on concrete inputs. -/
def splitOnChar (c : Char) : List Char → List (List Char)
  | [] => [[]]
  | x :: xs =>
    match splitOnChar c xs with
    | [] => [[x]]
    | y :: ys => if x = c then [] :: y :: ys else (x :: y) :: ys

/-- String-level wrapper for `splitOnChar`. -/
def strSplit (sep : Char) (s : String) : List String :=
  (splitOnChar sep s.data).map (fun cs => String.mk cs)

/-- Value of a non-empty all-digit character list. -/
def digitsVal? (cs : List Char) : Option Nat :=
  if cs ≠ [] ∧ cs.all (fun c => c.isDigit) then
    some (cs.foldl (fun n c => n * 10 + (c.toNat - 48)) 0)
  else none

/-- The numeric-literal recognition of the pandas C parser, restricted to the
forms the claims exercise: optional sign, decimal digits, optional fractional
part ("1", "-2", "3.5", "1.", ".5"); scientific notation, thousands
separators and the textual NaN spellings are not modelled.  Built on `mkRat`
so concrete inputs evaluate inside the kernel. -/
def parseNum? (s : String) : Option ℚ :=
  let p : Bool × List Char :=
    match s.data with
    | '-' :: rest => (true, rest)
    | '+' :: rest => (false, rest)
    | cs => (false, cs)
  let sgn : Int := if p.1 then -1 else 1
  match splitOnChar '.' p.2 with
  | [ip] => (digitsVal? ip).map (fun n => (mkRat (sgn * (n : Int)) 1 : ℚ))
  | [ip, fp] =>
    if ip = [] ∧ fp = [] then none
    else
      let ipn := if ip = [] then some 0 else digitsVal? ip
      let fpn := if fp = [] then some 0 else digitsVal? fp
      match ipn, fpn with
      | some a, some b =>
        some (mkRat (sgn * ((a * 10 ^ fp.length + b : Nat) : Int)) (10 ^ fp.length))
      | _, _ => none
  | _ => none

/-- The forced-text columns of `load_data`'s `dtype_spec`. -/
def dtype_spec : List String := ["Plant (WERKS)", "G/L Account (SAKNR)", "Company Code (BUKRS)"]

/-- A raw field read under `dtype=str`: empty fields are NaN, all others kept
as text. -/
def strField (s : String) : Cell := if s = "" then Cell.missing else Cell.text s

/-- A raw field read in a column inferred numeric. -/
def numField (s : String) : Cell :=
  if s = "" then Cell.missing
  else
    match parseNum? s with
    | some q => Cell.num q
    | none => Cell.text s

/-- Per-column type handling of `pd.read_csv`: columns forced by `dtype_spec`
stay text; otherwise a column every whose field is empty or numeric becomes a
numeric column (empties as NaN), and any other column stays text. -/
def convertColumn (name : String) (vals : List String) : List Cell :=
  if name ∈ dtype_spec then vals.map strField
  else if vals.all (fun s => s = "" || (parseNum? s).isSome) then vals.map numField
  else vals.map strField

/-- Occurrence-count lookup used by the header deduplication of `read_csv`
(`dedup_names` in pandas); absent keys count 0. -/
def cLookup : List (String × Nat) → String → Nat
  | [], _ => 0
  | p :: ps, s => if p.1 = s then p.2 else cLookup ps s

/-- Setting a key's occurrence count. -/
def cSet : List (String × Nat) → String → Nat → List (String × Nat)
  | [], s, v => [(s, v)]
  | p :: ps, s, v => if p.1 = s then (s, v) :: ps else p :: cSet ps s v

/-- Length of the longest key in the counts map, used to size the fuel of the
suffix-search loop. -/
def maxKeyLen (m : List (String × Nat)) : Nat :=
  m.foldl (fun a p => max a p.1.length) 0

/-- The suffix-search loop of pandas `dedup_names`: repeatedly append
`"." ++ count` to the colliding name until a name with count 0 is found.  In
pandas the loop always terminates because each step strictly lengthens the
candidate while every positive-count key keeps its length, so the fuel
`maxKeyLen + 2` supplied by `dedupStep` is never exhausted; the fuel-0 branch
returns a concatenation that is longer than every emitted name purely to keep
the model total. -/
def bumpName (acc : List String) :
    Nat → List (String × Nat) → String → Nat → String × List (String × Nat)
  | 0, m, col, _ => (acc.foldl (fun a b => a ++ b) (col ++ "."), m)
  | fuel + 1, m, col, cur =>
    let m' := cSet m col (cur + 1)
    let col' := col ++ "." ++ toString cur
    let cur' := cLookup m' col'
    if cur' = 0 then (col', m') else bumpName acc fuel m' col' cur'

/-- One step of header deduplication: first occurrences pass through, repeats
get a dot-suffix via `bumpName`. -/
def dedupStep (st : List String × List (String × Nat)) (col : String) :
    List String × List (String × Nat) :=
  let cur := cLookup st.2 col
  if cur = 0 then (st.1 ++ [col], cSet st.2 col 1)
  else
    let r := bumpName st.1 (maxKeyLen st.2 + 2) st.2 col cur
    (st.1 ++ [r.1], cSet r.2 r.1 1)

/-- Header deduplication of `pd.read_csv` (pandas `dedup_names`): duplicated
headers become `name.1`, `name.2`, …, chaining when a suffixed name itself
collides. -/
def dedupNames (names : List String) : List String :=
  (names.foldl dedupStep ([], [])).1

/-- The parse phase of `pd.read_csv(..., delimiter=";")`: split into lines
(ignoring blank lines, as `skip_blank_lines` does), split fields on ";", fail
like `EmptyDataError` on an input with no lines and like the C tokenizer's
`ParserError` when a data row has more fields than the header; short rows are
padded with empty fields (read as NaN).  Quoting is not modelled. -/
def parseCSV (s : String) : Except String (List String × List (List String)) :=
  match (strSplit '\n' s).filter (fun l => l ≠ "") with
  | [] => Except.error "No columns to parse from file"
  | h :: rest =>
    let header := strSplit ';' h
    let rows := rest.map (fun l => strSplit ';' l)
    if rows.all (fun r => r.length ≤ header.length) then
      Except.ok (header, rows.map (fun r => r ++ List.replicate (header.length - r.length) ""))
    else Except.error "Error tokenizing data"

/-- Assembling the DataFrame from parsed rows, then applying `load_data`'s two
column drops: `df.loc[:, (df != 0).any(axis=0)]` keeps only columns with some
cell that is not the number 0, and `df.dropna(how="all", axis=1)` keeps only
columns with some non-missing cell. -/
def buildTable (header : List String) (rawRows : List (List String)) : Table :=
  let names := dedupNames header
  let colCells : List (List Cell) :=
    (List.range header.length).map (fun c =>
      convertColumn (names.getD c "") (rawRows.map (fun r => r.getD c "")))
  let kept := (List.range header.length).filter (fun c =>
    ((colCells.getD c []).any (fun x => !x.isZero))
      && ((colCells.getD c []).any (fun x => !x.isMissing)))
  ⟨kept.map (fun c => names.getD c ""),
   (List.range rawRows.length).map (fun r =>
     kept.map (fun c => (colCells.getD c []).getD r Cell.missing))⟩

/-- `load_data` from `dataapp.py`: parse the upload as semicolon-delimited
CSV with the forced dtypes and the two column drops; any parse failure is
caught, reported through `st.error` as a human-readable message, and an empty
`pd.DataFrame()` is returned instead of a partial table. -/
def load_data (s : String) : Option String × Table :=
  match parseCSV s with
  | Except.error e => (some ("Error loading data: " ++ e), Table.emptyDF)
  | Except.ok hr => (none, buildTable hr.1 hr.2)


theorem cLookup_cSet_self (m : List (String × Nat)) (s : String) (v : Nat) :
    cLookup (cSet m s v) s = v := by
  induction m with
  | nil => simp [cSet, cLookup]
  | cons p ps ih =>
    by_cases h : p.1 = s
    · simp only [cSet, if_pos h]
      simp [cLookup]
    · simp only [cSet, if_neg h]
      simp [cLookup, h, ih]

theorem cLookup_cSet_ne (m : List (String × Nat)) (s t : String) (v : Nat) (h : t ≠ s) :
    cLookup (cSet m s v) t = cLookup m t := by
  have hst : s ≠ t := Ne.symm h
  induction m with
  | nil => simp [cSet, cLookup, hst]
  | cons p ps ih =>
    by_cases hp : p.1 = s
    · simp only [cSet, if_pos hp]
      simp [cLookup, hp, hst]
    · simp only [cSet, if_neg hp]
      by_cases ht : p.1 = t
      · simp [cLookup, ht]
      · simp [cLookup, ht, ih]

theorem length_foldl_append (acc : List String) (init : String) :
    (acc.foldl (fun a b => a ++ b) init).length
      = init.length + (acc.map String.length).sum := by
  induction acc generalizing init with
  | nil => simp
  | cons x xs ih =>
    rw [List.foldl_cons, ih]
    simp [String.length_append]
    omega

/-- The suffix search of `dedup_names` only emits names that are absent from
the already-emitted list, and keeps every emitted name's count positive. -/
theorem bumpName_fresh (acc : List String) (fuel : Nat) (m : List (String × Nat))
    (col : String) (cur : Nat) (hm : ∀ x ∈ acc, 1 ≤ cLookup m x) :
    (bumpName acc fuel m col cur).1 ∉ acc
      ∧ ∀ x ∈ acc, 1 ≤ cLookup (bumpName acc fuel m col cur).2 x := by
  induction fuel generalizing m col cur with
  | zero =>
    refine ⟨?_, hm⟩
    intro hmem
    simp only [bumpName] at hmem
    have hlen := length_foldl_append acc (col ++ ".")
    have hle : (acc.foldl (fun a b => a ++ b) (col ++ ".")).length
        ≤ (acc.map String.length).sum := by
      apply List.single_le_sum (by intro x hx; exact Nat.zero_le x)
      exact List.mem_map_of_mem String.length hmem
    rw [hlen] at hle
    have hdot : (col ++ ".").length = col.length + 1 := by
      have : (".").length = 1 := rfl
      rw [String.length_append, this]
    omega
  | succ fuel ih =>
    have hm' : ∀ x ∈ acc, 1 ≤ cLookup (cSet m col (cur + 1)) x := by
      intro x hx
      by_cases hxc : x = col
      · subst hxc
        rw [cLookup_cSet_self]
        omega
      · rw [cLookup_cSet_ne _ _ _ _ hxc]
        exact hm x hx
    simp only [bumpName]
    split
    · next hz =>
      refine ⟨?_, hm'⟩
      intro hmem
      have hcontra := hm' _ hmem
      simp only at hcontra
      rw [hz] at hcontra
      omega
    · next hz =>
      exact ih _ _ _ hm'

/-- Invariant of the deduplication fold: the emitted names are distinct and
every emitted name has a positive count. -/
def DedupInv (st : List String × List (String × Nat)) : Prop :=
  st.1.Nodup ∧ ∀ x ∈ st.1, 1 ≤ cLookup st.2 x

theorem dedupStep_inv (st : List String × List (String × Nat)) (col : String)
    (h : DedupInv st) : DedupInv (dedupStep st col) := by
  obtain ⟨hnd, hcnt⟩ := h
  by_cases hz : cLookup st.2 col = 0
  · have hstep : dedupStep st col = (st.1 ++ [col], cSet st.2 col 1) := by
      simp [dedupStep, hz]
    have hnot : col ∉ st.1 := by
      intro hmem
      have := hcnt col hmem
      omega
    rw [hstep]
    constructor
    · simp [List.nodup_append, hnot, hnd]
    · intro x hx
      rcases List.mem_append.mp hx with hx1 | hx2
      · by_cases hxc : x = col
        · subst hxc
          rw [cLookup_cSet_self]
        · rw [cLookup_cSet_ne _ _ _ _ hxc]
          exact hcnt x hx1
      · have hxcol : x = col := by simpa using hx2
        subst hxcol
        rw [cLookup_cSet_self]
  · have hb := bumpName_fresh st.1 (maxKeyLen st.2 + 2) st.2 col (cLookup st.2 col) hcnt
    have hstep : dedupStep st col
        = (st.1 ++ [(bumpName st.1 (maxKeyLen st.2 + 2) st.2 col (cLookup st.2 col)).1],
            cSet (bumpName st.1 (maxKeyLen st.2 + 2) st.2 col (cLookup st.2 col)).2
              (bumpName st.1 (maxKeyLen st.2 + 2) st.2 col (cLookup st.2 col)).1 1) := by
      simp [dedupStep, hz]
    rw [hstep]
    constructor
    · simp [List.nodup_append, hnd, hb.1]
    · intro x hx
      rcases List.mem_append.mp hx with hx1 | hx2
      · by_cases hxc : x = (bumpName st.1 (maxKeyLen st.2 + 2) st.2 col (cLookup st.2 col)).1
        · subst hxc
          rw [cLookup_cSet_self]
        · rw [cLookup_cSet_ne _ _ _ _ hxc]
          exact hb.2 x hx1
      · have hxcol : x = (bumpName st.1 (maxKeyLen st.2 + 2) st.2 col (cLookup st.2 col)).1 := by
          simpa using hx2
        subst hxcol
        rw [cLookup_cSet_self]

theorem foldl_dedup_inv (l : List String) (st : List String × List (String × Nat))
    (h : DedupInv st) : DedupInv (l.foldl dedupStep st) := by
  induction l generalizing st with
  | nil => exact h
  | cons x xs ih => exact ih _ (dedupStep_inv st x h)

/-- The deduplicated header is duplicate-free. -/
theorem dedupNames_nodup (names : List String) : (dedupNames names).Nodup :=
  (foldl_dedup_inv names ([], []) ⟨List.nodup_nil, by simp⟩).1

theorem dedupStep_length (st : List String × List (String × Nat)) (col : String) :
    (dedupStep st col).1.length = st.1.length + 1 := by
  by_cases hz : cLookup st.2 col = 0
  · simp [dedupStep, hz]
  · simp [dedupStep, hz]

theorem foldl_dedup_length (l : List String) (st : List String × List (String × Nat)) :
    (l.foldl dedupStep st).1.length = st.1.length + l.length := by
  induction l generalizing st with
  | nil => simp
  | cons x xs ih =>
    rw [List.foldl_cons, ih, dedupStep_length, List.length_cons]
    omega

/-- Deduplication keeps the number of headers. -/
theorem dedupNames_length (names : List String) :
    (dedupNames names).length = names.length := by
  unfold dedupNames
  rw [foldl_dedup_length]
  simp

theorem convertColumn_length (name : String) (vals : List String) :
    (convertColumn name vals).length = vals.length := by
  unfold convertColumn
  split_ifs <;> simp

theorem range_map_getD {α : Type} (L : List α) (d : α) :
    (List.range L.length).map (fun r => L.getD r d) = L := by
  apply List.ext_getElem
  · simp
  · intro i h1 h2
    simp only [List.getElem_map, List.getElem_range]
    exact List.getD_eq_getElem L d h2

/-- Reading column `i` of the assembled row-major table recovers the `i`-th
kept converted column. -/
theorem keptTable_col (colCells : List (List Cell)) (kept : List Nat) (nrows : Nat)
    (hlen : ∀ c ∈ kept, (colCells.getD c []).length = nrows) (i : Nat) (hi : i < kept.length) :
    ((List.range nrows).map
        (fun r => kept.map (fun c => (colCells.getD c []).getD r Cell.missing))).map
      (fun r => r.getD i Cell.missing)
      = colCells.getD (kept.getD i 0) [] := by
  have hmem : kept.getD i 0 ∈ kept := by
    rw [List.getD_eq_getElem _ _ hi]
    exact List.getElem_mem _
  apply List.ext_getElem
  · rw [List.length_map, List.length_map, List.length_range, hlen _ hmem]
  · intro r h1 h2
    simp only [List.getElem_map, List.getElem_range]
    have hmi : i < (kept.map (fun c => (colCells.getD c []).getD r Cell.missing)).length := by
      simpa using hi
    rw [List.getD_eq_getElem _ _ hmi, List.getElem_map]
    have hgd : kept.getD i 0 = kept[i] := List.getD_eq_getElem kept 0 hi
    calc (colCells.getD kept[i] []).getD r Cell.missing
        = (colCells.getD (kept.getD i 0) []).getD r Cell.missing := by rw [hgd]
      _ = (colCells.getD (kept.getD i 0) [])[r] := List.getD_eq_getElem _ _ h2

/-- Structural properties of the loaded table: distinct column names, and
every kept column has a cell that is not the number 0 (survives the
`(df != 0).any` drop) and a non-missing cell (survives `dropna(how="all")`). -/
theorem buildTable_spec (header : List String) (rawRows : List (List String)) :
    (buildTable header rawRows).cols.Nodup
      ∧ ∀ i, i < (buildTable header rawRows).cols.length →
          ((buildTable header rawRows).rows.map (fun r => r.getD i Cell.missing)).any
              (fun x => !x.isZero) = true
            ∧ ((buildTable header rawRows).rows.map (fun r => r.getD i Cell.missing)).any
              (fun x => !x.isMissing) = true := by
  unfold buildTable
  simp only
  constructor
  · apply List.Nodup.map_on
    · intro x hx y hy hxy
      have hxn : x < header.length := by
        have := List.mem_filter.mp hx
        simpa using List.mem_range.mp (this.1)
      have hyn : y < header.length := by
        have := List.mem_filter.mp hy
        simpa using List.mem_range.mp (this.1)
      have hxl : x < (dedupNames header).length := by rw [dedupNames_length]; exact hxn
      have hyl : y < (dedupNames header).length := by rw [dedupNames_length]; exact hyn
      rw [List.getD_eq_getElem _ _ hxl, List.getD_eq_getElem _ _ hyl] at hxy
      exact ((dedupNames_nodup header).getElem_inj_iff).mp hxy
    · exact List.Nodup.filter _ (List.nodup_range _)
  · intro i hi
    have hi' : i < (List.filter
        (fun c =>
          (((List.range header.length).map
              (fun c => convertColumn ((dedupNames header).getD c "")
                (rawRows.map (fun r => r.getD c "")))).getD c []).any (fun x => !x.isZero)
            && (((List.range header.length).map
              (fun c => convertColumn ((dedupNames header).getD c "")
                (rawRows.map (fun r => r.getD c "")))).getD c []).any (fun x => !x.isMissing))
        (List.range header.length)).length := by
      simpa using hi
    have hcollen : ∀ c ∈ List.filter
        (fun c =>
          (((List.range header.length).map
              (fun c => convertColumn ((dedupNames header).getD c "")
                (rawRows.map (fun r => r.getD c "")))).getD c []).any (fun x => !x.isZero)
            && (((List.range header.length).map
              (fun c => convertColumn ((dedupNames header).getD c "")
                (rawRows.map (fun r => r.getD c "")))).getD c []).any (fun x => !x.isMissing))
        (List.range header.length),
        ((((List.range header.length).map
            (fun c => convertColumn ((dedupNames header).getD c "")
              (rawRows.map (fun r => r.getD c "")))).getD c [])).length = rawRows.length := by
      intro c hc
      have hcn : c < header.length := by
        simpa using List.mem_range.mp (List.mem_filter.mp hc).1
      have hcl : c < ((List.range header.length).map
          (fun c => convertColumn ((dedupNames header).getD c "")
            (rawRows.map (fun r => r.getD c "")))).length := by simpa using hcn
      rw [List.getD_eq_getElem _ _ hcl, List.getElem_map, List.getElem_range,
        convertColumn_length, List.length_map]
    rw [keptTable_col _ _ _ hcollen i hi']
    have hmem : (List.filter
        (fun c =>
          (((List.range header.length).map
              (fun c => convertColumn ((dedupNames header).getD c "")
                (rawRows.map (fun r => r.getD c "")))).getD c []).any (fun x => !x.isZero)
            && (((List.range header.length).map
              (fun c => convertColumn ((dedupNames header).getD c "")
                (rawRows.map (fun r => r.getD c "")))).getD c []).any (fun x => !x.isMissing))
        (List.range header.length)).getD i 0
        ∈ List.filter
          (fun c =>
            (((List.range header.length).map
                (fun c => convertColumn ((dedupNames header).getD c "")
                  (rawRows.map (fun r => r.getD c "")))).getD c []).any (fun x => !x.isZero)
              && (((List.range header.length).map
                (fun c => convertColumn ((dedupNames header).getD c "")
                  (rawRows.map (fun r => r.getD c "")))).getD c []).any (fun x => !x.isMissing))
          (List.range header.length) := by
      rw [List.getD_eq_getElem _ _ hi']
      exact List.getElem_mem _
    have hprop := (List.mem_filter.mp hmem).2
    rw [Bool.and_eq_true] at hprop
    exact ⟨hprop.1, hprop.2⟩

/-- C8 (confirmed): when the upload cannot be parsed into a table,
`load_data` surfaces the failure as a human-readable message (via
`st.error`), returns the empty `pd.DataFrame()` rather than a partial table,
and — being a total catch-all translated from `try/except` — never
propagates the exception, so the interactive session does not crash. -/
theorem load_data_error_handling (s e : String) (h : parseCSV s = Except.error e) :
    load_data s = (some ("Error loading data: " ++ e), Table.emptyDF)
      ∧ Table.emptyDF.isEmpty = true := by
  constructor
  · simp [load_data, h]
  · rfl

/-- Witness for C8 at a ragged input whose second line has more fields than
the header. -/
theorem load_data_error_handling_witness :
    load_data "c\n1;2" = (some ("Error loading data: " ++ "Error tokenizing data"), Table.emptyDF)
      ∧ Table.emptyDF.isEmpty = true :=
  load_data_error_handling "c\n1;2" "Error tokenizing data" (by rfl)

/-- C9 (amended): every table produced by `load_data` has duplicate-free
column names (the parser disambiguates repeated headers with dot-suffixes,
but performs no trimming or space-to-underscore normalization — see the
counterexample), and every column that survives loading has a cell that is
not the number 0 and a non-missing cell; equivalently, all-zero columns and
all-empty columns are absent from the result. -/
theorem load_data_invariants (s : String) :
    (load_data s).2.cols.Nodup
      ∧ ∀ i, i < (load_data s).2.cols.length →
          ((load_data s).2.rows.map (fun r => r.getD i Cell.missing)).any
              (fun x => !x.isZero) = true
            ∧ ((load_data s).2.rows.map (fun r => r.getD i Cell.missing)).any
              (fun x => !x.isMissing) = true := by
  cases hp : parseCSV s with
  | error e =>
    constructor
    · simp [load_data, hp, Table.emptyDF]
    · intro i hi
      simp [load_data, hp, Table.emptyDF] at hi
  | ok hr =>
    have h := buildTable_spec hr.1 hr.2
    constructor
    · simpa [load_data, hp] using h.1
    · intro i hi
      have hi' : i < (buildTable hr.1 hr.2).cols.length := by
        simpa [load_data, hp] using hi
      have := h.2 i hi'
      simpa [load_data, hp] using this

/-- Witness for C9 at an input with a duplicated header, an all-zero column
and an all-empty column. -/
theorem load_data_invariants_witness :
    (load_data "a;a;z;w\n1;x;0;").2.cols.Nodup
      ∧ (((load_data "a;a;z;w\n1;x;0;").2.rows.map (fun r => r.getD 0 Cell.missing)).any
            (fun x => !x.isZero) = true
          ∧ ((load_data "a;a;z;w\n1;x;0;").2.rows.map (fun r => r.getD 0 Cell.missing)).any
            (fun x => !x.isMissing) = true) :=
  ⟨(load_data_invariants "a;a;z;w\n1;x;0;").1,
   (load_data_invariants "a;a;z;w\n1;x;0;").2 0 (by decide)⟩

/-- Header normalization as the specification claims it (trim surrounding
whitespace, replace interior spaces with underscores).  Modelled from the
spec: `load_data` contains no such normalization; this definition exists
only to state the counterexample against the claim. -/
def normalizeHeader (s : String) : String :=
  String.mk
    (((s.data.dropWhile (fun c => c = ' ')).reverse.dropWhile (fun c => c = ' ')).reverse.map
      (fun c => if c = ' ' then '_' else c))

/-- C9 counterexample: a header with surrounding and interior spaces is taken
verbatim by `load_data`; it is neither trimmed nor underscore-normalized. -/
theorem load_data_header_counterexample :
    (load_data " a b ;x\n1;2").2.cols = [" a b ", "x"]
      ∧ normalizeHeader " a b " ≠ " a b " := by decide

/-- Minimal quoting of one CSV field, as `DataFrame.to_csv` does: a field
containing the comma delimiter, a quote or a newline is wrapped in quotes
with inner quotes doubled. -/
def csvField (s : String) : String :=
  if s.data.any (fun c => c = ',' || c = '"' || c = '\n') then
    "\"" ++ String.mk (s.data.foldr (fun c acc => if c = '"' then '"' :: '"' :: acc else c :: acc) [])
      ++ "\""
  else s

/-- How `to_csv` renders one cell: NaN becomes the empty field, everything
else its text rendering. -/
def exportCell : Cell → String
  | Cell.missing => ""
  | c => c.render

/-- Joining fields with a separator. -/
def joinWith (sep : String) : List String → String
  | [] => ""
  | [x] => x
  | x :: y :: xs => x ++ sep ++ joinWith sep (y :: xs)

/-- The app's exporter, `filtered_df.to_csv("filtered_data.csv", index=False)`:
comma-separated text with a header row and a trailing newline per line. -/
def to_csv (t : Table) : String :=
  joinWith "," (t.cols.map csvField) ++ "\n"
    ++ String.join (t.rows.map (fun r => joinWith "," (r.map (fun c => csvField (exportCell c))) ++ "\n"))

/-- C4 (code bug): the exporter writes comma-delimited text but `load_data`
parses only semicolons, so export-then-load does not reproduce the table:
the two-column table `[a, b] / [1, 2]` exports to `"a,b\n1,2\n"`, which loads
back as a single column named `a,b` holding the single text cell `1,2`. -/
theorem export_load_roundtrip_failure :
    to_csv ⟨["a", "b"], [[Cell.text "1", Cell.text "2"]]⟩ = "a,b\n1,2\n"
      ∧ load_data (to_csv ⟨["a", "b"], [[Cell.text "1", Cell.text "2"]]⟩)
          = (none, ⟨["a,b"], [[Cell.text "1,2"]]⟩)
      ∧ (load_data (to_csv ⟨["a", "b"], [[Cell.text "1", Cell.text "2"]]⟩)).2
          ≠ (⟨["a", "b"], [[Cell.text "1", Cell.text "2"]]⟩ : Table) := by decide

/-- Reading a column of a table (`df[c]`); absent columns raise `KeyError`
in pandas, so theorems carry a membership hypothesis. -/
def getCol (t : Table) (c : String) : List Cell :=
  match t.cols.indexOf? c with
  | some i => t.rows.map (fun r => r.getD i Cell.missing)
  | none => []

/-- ISO `yyyy-mm-dd` date recognition, the format relevant to the claims;
`pd.to_datetime` accepts more formats, which are not modelled. -/
def parseDate? (s : String) : Option (Int × Nat × Nat) :=
  match splitOnChar '-' s.data with
  | [ys, ms, ds] =>
    match digitsVal? ys, digitsVal? ms, digitsVal? ds with
    | some y, some m, some d =>
      if 1 ≤ m ∧ m ≤ 12 ∧ 1 ≤ d ∧ d ≤ 31 then some ((y : Int), m, d) else none
    | _, _, _ => none
  | _ => none

/-- Civil calendar date of a day count relative to 1970-01-01 (the standard
era-based algorithm); used to model `pd.to_datetime` on numeric cells,
which pandas interprets as nanoseconds since the epoch. -/
def civilFromDays (z0 : Int) : Int × Nat × Nat :=
  let z := z0 + 719468
  let era := z.fdiv 146097
  let doe : Nat := (z - era * 146097).toNat
  let yoe : Nat := (doe - doe / 1460 + doe / 36524 - doe / 146096) / 365
  let doy : Nat := doe - (365 * yoe + yoe / 4 - yoe / 100)
  let mp : Nat := (5 * doy + 2) / 153
  let d : Nat := doy - (153 * mp + 2) / 5 + 1
  let m : Nat := if mp < 10 then mp + 3 else mp - 9
  ((yoe : Int) + era * 400 + (if m ≤ 2 then 1 else 0), m, d)

/-- One cell under `pd.to_datetime(..., errors="coerce")`: date strings
parse to timestamps, unparseable strings become NaT, numbers are read as
nanoseconds since the epoch, timestamps pass through, NaN stays NaT. -/
def cellToDate : Cell → Cell
  | Cell.text s =>
    match parseDate? s with
    | some (y, m, d) => Cell.dval y m d
    | none => Cell.missing
  | Cell.num q =>
    match civilFromDays ((Rat.floor q).fdiv 86400000000000) with
    | (y, m, d) => Cell.dval y m d
  | Cell.dval y m d => Cell.dval y m d
  | Cell.missing => Cell.missing

/-- One cell under `pd.to_numeric(..., errors="coerce")`: numeric strings
parse, other strings become NaN, numbers pass through, NaN stays.  On a
timestamp column library versions disagree (convert to nanoseconds or
raise); modelled as NaN, and no theorem depends on that case (all carry
`date_col ≠ value_col`). -/
def cellToNum : Cell → Cell
  | Cell.text s =>
    match parseNum? s with
    | some q => Cell.num q
    | none => Cell.missing
  | Cell.num q => Cell.num q
  | Cell.dval _ _ _ => Cell.missing
  | Cell.missing => Cell.missing

/-- Writing a column back (`df[c] = vals`): replace the column in place when
it exists, append a new column otherwise. -/
def setCol (t : Table) (c : String) (vals : List Cell) : Table :=
  match t.cols.indexOf? c with
  | some i => ⟨t.cols, t.rows.zipWith (fun r v => r.set i v) vals⟩
  | none => ⟨t.cols ++ [c], t.rows.zipWith (fun r v => r ++ [v]) vals⟩

/-- Chronological index of a calendar month. -/
def monthIdx (y : Int) (m : Nat) : Int := y * 12 + ((m : Int) - 1)

/-- The calendar month of a timestamp cell, `none` for NaT and non-dates. -/
def cellMonth? : Cell → Option Int
  | Cell.dval y m _ => some (monthIdx y m)
  | _ => none

/-- The numeric value of a cell, `none` for NaN and non-numbers. -/
def cellNum? : Cell → Option ℚ
  | Cell.num q => some q
  | _ => none

/-- Arithmetic mean with NaN result on an empty list, as pandas `mean()`
with `skipna` behaves inside a resample bin. -/
def meanOpt (l : List ℚ) : Option ℚ :=
  if l.isEmpty then none else some (l.sum / (l.length : ℚ))

/-- The rows of a (timestamp cell, value cell) series that carry a real
timestamp, tagged with their calendar month; rows with NaT are excluded, as
`resample` excludes them. -/
def datedOf (pairs : List (Cell × Cell)) : List (Int × Cell) :=
  pairs.filterMap (fun p => (cellMonth? p.1).map (fun m => (m, p.2)))

/-- `Series.resample("M").mean()` over (timestamp cell, value cell) rows:
rows with NaT are excluded, and one bin is produced for every calendar month
from the earliest to the latest observed month (pandas resampling fills
interior empty months), each holding the NaN-skipping mean of its values,
NaN when the bin has no numeric value. -/
def resampleMonthlyMean (pairs : List (Cell × Cell)) : List (Int × Option ℚ) :=
  let dated := datedOf pairs
  match dated.map Prod.fst with
  | [] => []
  | m0 :: ms =>
    let lo := ms.foldl min m0
    let hi := ms.foldl max m0
    (List.range (hi - lo + 1).toNat).map (fun (k : Nat) =>
      (lo + (k : Int),
        meanOpt ((dated.filter (fun p => p.1 = lo + (k : Int))).filterMap
          (fun p => cellNum? p.2))))

/-- Outcome of `plot_trend`: which warning fired, or the plotted monthly
series. -/
inductive TrendResult where
  | emptyWarn
  | dateFail
  | valueFail
  | ok (series : List (Int × Option ℚ))
deriving DecidableEq

/-- `plot_trend` from `dataapp.py`.  The two coercion assignments
`df[date_col] = pd.to_datetime(...)` and `df[value_col] = pd.to_numeric(...)`
mutate the caller's frame, so the function returns the caller-visible
post-state of the input table alongside its outcome: the untouched table
when empty, the date-coerced table when date parsing fails wholesale, and
the doubly-coerced table otherwise. -/
def plot_trend (df : Table) (date_col value_col : String) : TrendResult × Table :=
  if !df.isEmpty then
    let dcol := (getCol df date_col).map cellToDate
    let df1 := setCol df date_col dcol
    if dcol.all (fun x => x.isMissing) then (TrendResult.dateFail, df1)
    else
      let vcol := (getCol df1 value_col).map cellToNum
      let df2 := setCol df1 value_col vcol
      if vcol.all (fun x => x.isMissing) then (TrendResult.valueFail, df2)
      else
        (TrendResult.ok (resampleMonthlyMean ((getCol df2 date_col).zip (getCol df2 value_col))),
          df2)
  else (TrendResult.emptyWarn, df)

/-- True when a column's dtype is numeric (every cell a number or NaN), the
shallow counterpart of `pd.api.types.is_numeric_dtype`. -/
def isNumericCol (col : List Cell) : Bool :=
  col.all (fun x =>
    match x with
    | Cell.num _ => true
    | Cell.missing => true
    | _ => false)

/-- A whole series under `pd.to_numeric(..., errors="ignore")`: the column
converts only when every cell converts (NaN counts as convertible),
otherwise it is returned unchanged.  A timestamp cell is treated as a
conversion failure (see `cellToNum` on versions). -/
def seriesToNumericIgnore (col : List Cell) : List Cell :=
  if col.all (fun x =>
      match x with
      | Cell.text s => (parseNum? s).isSome
      | Cell.num _ => true
      | Cell.missing => true
      | Cell.dval _ _ _ => false) then
    col.map (fun x =>
      match x with
      | Cell.text s =>
        match parseNum? s with
        | some q => Cell.num q
        | none => Cell.missing
      | c => c)
  else col

/-- Outcome of `plot_data`: which chart (if any) is produced. -/
inductive PlotOutcome where
  | emptyWarn
  | lineDrawn
  | lineRefused
  | barGrouped
  | barCounts
  | otherKind
deriving DecidableEq

/-- `plot_data` from `dataapp.py` (the ChartSpec producer): both selected
columns are coerced with `errors="ignore"` — two in-place assignments that
mutate the caller's frame — then a line chart requires both columns numeric
(warning otherwise), and a bar chart groups-and-sums for a numeric y-column
and falls back to value counts otherwise.  Returns the outcome and the
caller-visible post-state of the input table. -/
def plot_data (df : Table) (x_col y_col plot_type : String) : PlotOutcome × Table :=
  if !df.isEmpty then
    let df1 := setCol df x_col (seriesToNumericIgnore (getCol df x_col))
    let df2 := setCol df1 y_col (seriesToNumericIgnore (getCol df1 y_col))
    if plot_type = "line" then
      if isNumericCol (getCol df2 x_col) && isNumericCol (getCol df2 y_col) then
        (PlotOutcome.lineDrawn, df2)
      else (PlotOutcome.lineRefused, df2)
    else if plot_type = "bar" then
      if isNumericCol (getCol df2 y_col) then (PlotOutcome.barGrouped, df2)
      else (PlotOutcome.barCounts, df2)
    else (PlotOutcome.otherKind, df2)
  else (PlotOutcome.emptyWarn, df)

/-- The rows of a (timestamp cell, value cell) series surviving both
coercions: a real timestamp (tagged with its month) and a numeric value. -/
def survivorsOf (pairs : List (Cell × Cell)) : List (Int × ℚ) :=
  pairs.filterMap (fun p =>
    match cellMonth? p.1, cellNum? p.2 with
    | some m, some q => some (m, q)
    | _, _ => none)

/-- The rows surviving both coercions, as the specification describes the
grouping: month of the coerced date cell and value of the coerced numeric
cell, keeping only rows where both succeed. -/
def trendSurvivors (t : Table) (dc vc : String) : List (Int × ℚ) :=
  survivorsOf (((getCol t dc).map cellToDate).zip ((getCol t vc).map cellToNum))

/-- Well-formed tables: every row has exactly one cell per column. -/
def Table.WF (t : Table) : Prop := ∀ r ∈ t.rows, r.length = t.cols.length

theorem indexOf?_some_spec {l : List String} {a : String} {i : Nat}
    (h : l.indexOf? a = some i) : ∃ hi : i < l.length, l[i] = a := by
  unfold List.indexOf? at h
  obtain ⟨hi, hp, _⟩ := List.findIdx?_eq_some_iff_getElem.mp h
  exact ⟨hi, by simpa using hp⟩

theorem indexOf?_isSome_of_mem {l : List String} {a : String} (h : a ∈ l) :
    ∃ i, l.indexOf? a = some i := by
  cases hc : l.indexOf? a with
  | none =>
    exfalso
    have := List.indexOf?_eq_none_iff.mp hc a h
    simp at this
  | some i => exact ⟨i, rfl⟩

theorem getCol_length (t : Table) (c : String) (hc : c ∈ t.cols) :
    (getCol t c).length = t.rows.length := by
  obtain ⟨i, hi⟩ := indexOf?_isSome_of_mem hc
  unfold getCol
  rw [hi]
  simp

theorem setCol_cols (t : Table) (c : String) (vals : List Cell) (hc : c ∈ t.cols) :
    (setCol t c vals).cols = t.cols := by
  obtain ⟨i, hi⟩ := indexOf?_isSome_of_mem hc
  unfold setCol
  rw [hi]

theorem map_getD_zipWith_set (rows : List (List Cell)) (vals : List Cell) (i j : Nat)
    (hne : j ≠ i) (hlen : vals.length = rows.length) :
    (rows.zipWith (fun r v => r.set i v) vals).map (fun r => r.getD j Cell.missing)
      = rows.map (fun r => r.getD j Cell.missing) := by
  induction rows generalizing vals with
  | nil => simp
  | cons r rs ih =>
    cases vals with
    | nil => simp at hlen
    | cons v vs =>
      rw [List.zipWith_cons_cons, List.map_cons, List.map_cons]
      congr 1
      · rw [List.getD_eq_getElem?_getD, List.getD_eq_getElem?_getD,
          List.getElem?_set_ne (Ne.symm hne)]
      · exact ih vs (by simpa using hlen)

theorem map_getD_zipWith_set_self (rows : List (List Cell)) (vals : List Cell) (i : Nat)
    (hlen : vals.length = rows.length) (hbound : ∀ r ∈ rows, i < r.length) :
    (rows.zipWith (fun r v => r.set i v) vals).map (fun r => r.getD i Cell.missing)
      = vals := by
  induction rows generalizing vals with
  | nil =>
    cases vals with
    | nil => rfl
    | cons v vs => simp at hlen
  | cons r rs ih =>
    cases vals with
    | nil => simp at hlen
    | cons v vs =>
      rw [List.zipWith_cons_cons, List.map_cons]
      congr 1
      · rw [List.getD_eq_getElem?_getD, List.getElem?_set_self (hbound r (by simp))]
        rfl
      · exact ih vs (by simpa using hlen) (fun r hr => hbound r (by simp [hr]))

/-- Assigning one column leaves every other column's data unchanged. -/
theorem getCol_setCol_ne (t : Table) (name c : String) (vals : List Cell)
    (hname : name ∈ t.cols) (hc : c ≠ name) (hlen : vals.length = t.rows.length) :
    getCol (setCol t name vals) c = getCol t c := by
  obtain ⟨i, hi⟩ := indexOf?_isSome_of_mem hname
  obtain ⟨hilt, hieq⟩ := indexOf?_some_spec hi
  unfold setCol
  rw [hi]
  unfold getCol
  simp only
  cases hj : t.cols.indexOf? c with
  | none => rfl
  | some j =>
    obtain ⟨hjlt, hjeq⟩ := indexOf?_some_spec hj
    have hij : j ≠ i := by
      intro hcon
      subst hcon
      exact hc (hjeq ▸ hieq ▸ rfl)
    exact map_getD_zipWith_set t.rows vals i j hij hlen

/-- Assigning a column and reading it back returns the assigned data (for
well-formed tables). -/
theorem getCol_setCol_self (t : Table) (name : String) (vals : List Cell)
    (hname : name ∈ t.cols) (hlen : vals.length = t.rows.length) (hwf : Table.WF t) :
    getCol (setCol t name vals) name = vals := by
  obtain ⟨i, hi⟩ := indexOf?_isSome_of_mem hname
  obtain ⟨hilt, hieq⟩ := indexOf?_some_spec hi
  unfold setCol
  rw [hi]
  unfold getCol
  simp only
  rw [hi]
  exact map_getD_zipWith_set_self t.rows vals i hlen
    (fun r hr => by rw [hwf r hr]; exact hilt)

theorem seriesToNumericIgnore_length (col : List Cell) :
    (seriesToNumericIgnore col).length = col.length := by
  unfold seriesToNumericIgnore
  split_ifs
  · rw [List.length_map]
  · rfl

theorem plot_data_post (t : Table) (xc yc pt : String) (hemp : t.isEmpty = false) :
    (plot_data t xc yc pt).2
      = setCol (setCol t xc (seriesToNumericIgnore (getCol t xc))) yc
          (seriesToNumericIgnore (getCol (setCol t xc (seriesToNumericIgnore (getCol t xc))) yc)) := by
  simp only [plot_data, hemp, Bool.not_false, if_true]
  split_ifs <;> rfl

/-- C5 (amended): `filter_data`, the summaries and the exporter take their
input by value in this model because the Python performs no assignment into
the caller's frame; but `plot_trend` and `plot_data` do mutate the caller's
table, overwriting the selected columns with their coerced versions.  The
mutation is confined: the column list is unchanged and every column other
than the two selected ones is cell-for-cell identical before and after the
call. -/
theorem frame_effects (t : Table) (dc vc xc yc pt : String)
    (hdc : dc ∈ t.cols) (hvc : vc ∈ t.cols) (hxc : xc ∈ t.cols) (hyc : yc ∈ t.cols) :
    ((plot_trend t dc vc).2.cols = t.cols
        ∧ ∀ c, c ≠ dc → c ≠ vc → getCol (plot_trend t dc vc).2 c = getCol t c)
      ∧ ((plot_data t xc yc pt).2.cols = t.cols
        ∧ ∀ c, c ≠ xc → c ≠ yc → getCol (plot_data t xc yc pt).2 c = getCol t c) := by
  have hlen_d : ((getCol t dc).map cellToDate).length = t.rows.length := by
    rw [List.length_map, getCol_length t dc hdc]
  have hcols1 : (setCol t dc ((getCol t dc).map cellToDate)).cols = t.cols :=
    setCol_cols t dc _ hdc
  have hvc1 : vc ∈ (setCol t dc ((getCol t dc).map cellToDate)).cols := by
    rw [hcols1]; exact hvc
  have hlen_v : ((getCol (setCol t dc ((getCol t dc).map cellToDate)) vc).map cellToNum).length
      = (setCol t dc ((getCol t dc).map cellToDate)).rows.length := by
    rw [List.length_map, getCol_length _ vc hvc1]
  have hcols2 : (setCol (setCol t dc ((getCol t dc).map cellToDate)) vc
      ((getCol (setCol t dc ((getCol t dc).map cellToDate)) vc).map cellToNum)).cols
      = t.cols := by
    rw [setCol_cols _ vc _ hvc1, hcols1]
  have hpres2 : ∀ c, c ≠ dc → c ≠ vc →
      getCol (setCol (setCol t dc ((getCol t dc).map cellToDate)) vc
        ((getCol (setCol t dc ((getCol t dc).map cellToDate)) vc).map cellToNum)) c
        = getCol t c := by
    intro c hcd hcv
    rw [getCol_setCol_ne _ vc c _ hvc1 hcv hlen_v,
      getCol_setCol_ne t dc c _ hdc hcd hlen_d]
  constructor
  · by_cases hemp : t.isEmpty = true
    · have hpt : plot_trend t dc vc = (TrendResult.emptyWarn, t) := by
        simp [plot_trend, hemp]
      rw [hpt]
      exact ⟨rfl, fun c _ _ => rfl⟩
    · rw [Bool.not_eq_true] at hemp
      by_cases hdf : ((getCol t dc).map cellToDate).all (fun x => x.isMissing) = true
      · have hpt : (plot_trend t dc vc).2 = setCol t dc ((getCol t dc).map cellToDate) := by
          simp [plot_trend, hemp, hdf]
        rw [hpt]
        refine ⟨hcols1, fun c hcd _ => ?_⟩
        exact getCol_setCol_ne t dc c _ hdc hcd hlen_d
      · rw [Bool.not_eq_true] at hdf
        have hpt : (plot_trend t dc vc).2
            = setCol (setCol t dc ((getCol t dc).map cellToDate)) vc
                ((getCol (setCol t dc ((getCol t dc).map cellToDate)) vc).map cellToNum) := by
          simp only [plot_trend, hemp, Bool.not_false, if_true, hdf, Bool.false_eq_true,
            if_false]
          split_ifs <;> rfl
        rw [hpt]
        exact ⟨hcols2, hpres2⟩
  · by_cases hemp : t.isEmpty = true
    · have hpd : plot_data t xc yc pt = (PlotOutcome.emptyWarn, t) := by
        simp [plot_data, hemp]
      rw [hpd]
      exact ⟨rfl, fun c _ _ => rfl⟩
    · rw [Bool.not_eq_true] at hemp
      rw [plot_data_post t xc yc pt hemp]
      have hlen_x : (seriesToNumericIgnore (getCol t xc)).length = t.rows.length := by
        rw [seriesToNumericIgnore_length, getCol_length t xc hxc]
      have hcolsx : (setCol t xc (seriesToNumericIgnore (getCol t xc))).cols = t.cols :=
        setCol_cols t xc _ hxc
      have hyc1 : yc ∈ (setCol t xc (seriesToNumericIgnore (getCol t xc))).cols := by
        rw [hcolsx]; exact hyc
      have hlen_y : (seriesToNumericIgnore
          (getCol (setCol t xc (seriesToNumericIgnore (getCol t xc))) yc)).length
          = (setCol t xc (seriesToNumericIgnore (getCol t xc))).rows.length := by
        rw [seriesToNumericIgnore_length, getCol_length _ yc hyc1]
      constructor
      · rw [setCol_cols _ yc _ hyc1, hcolsx]
      · intro c hcx hcy
        rw [getCol_setCol_ne _ yc c _ hyc1 hcy hlen_y,
          getCol_setCol_ne t xc c _ hxc hcx hlen_x]

/-- C5 counterexample: `plot_trend` mutates its input frame — after the call
the date cell has been overwritten by a timestamp and the value cell by a
number, so the table passed in is not cell-for-cell identical afterwards. -/
theorem plot_trend_mutates_counterexample :
    (plot_trend ⟨["d", "v"], [[Cell.text "2024-01-15", Cell.text "7"]]⟩ "d" "v").2
      ≠ (⟨["d", "v"], [[Cell.text "2024-01-15", Cell.text "7"]]⟩ : Table) := by decide

/-- Witness for C5 at a concrete two-column table. -/
theorem frame_effects_witness :
    ((plot_trend ⟨["d", "v"], [[Cell.text "2024-01-15", Cell.num 1]]⟩ "d" "v").2.cols
          = (Table.mk ["d", "v"] [[Cell.text "2024-01-15", Cell.num 1]]).cols
        ∧ ∀ c, c ≠ "d" → c ≠ "v" →
            getCol (plot_trend ⟨["d", "v"], [[Cell.text "2024-01-15", Cell.num 1]]⟩ "d" "v").2 c
              = getCol ⟨["d", "v"], [[Cell.text "2024-01-15", Cell.num 1]]⟩ c)
      ∧ ((plot_data ⟨["d", "v"], [[Cell.text "2024-01-15", Cell.num 1]]⟩ "d" "v" "line").2.cols
          = (Table.mk ["d", "v"] [[Cell.text "2024-01-15", Cell.num 1]]).cols
        ∧ ∀ c, c ≠ "d" → c ≠ "v" →
            getCol (plot_data ⟨["d", "v"], [[Cell.text "2024-01-15", Cell.num 1]]⟩ "d" "v" "line").2 c
              = getCol ⟨["d", "v"], [[Cell.text "2024-01-15", Cell.num 1]]⟩ c) :=
  frame_effects ⟨["d", "v"], [[Cell.text "2024-01-15", Cell.num 1]]⟩ "d" "v" "d" "v" "line"
    (by decide) (by decide) (by decide) (by decide)

theorem foldl_min_le (l : List Int) (a : Int) :
    l.foldl min a ≤ a ∧ ∀ x ∈ l, l.foldl min a ≤ x := by
  induction l generalizing a with
  | nil => exact ⟨le_refl a, by simp⟩
  | cons b bs ih =>
    rw [List.foldl_cons]
    obtain ⟨h1, h2⟩ := ih (min a b)
    refine ⟨le_trans h1 (min_le_left a b), ?_⟩
    intro x hx
    rcases List.mem_cons.mp hx with rfl | hx'
    · exact le_trans h1 (min_le_right a x)
    · exact h2 x hx'

theorem le_foldl_max (l : List Int) (a : Int) :
    a ≤ l.foldl max a ∧ ∀ x ∈ l, x ≤ l.foldl max a := by
  induction l generalizing a with
  | nil => exact ⟨le_refl a, by simp⟩
  | cons b bs ih =>
    rw [List.foldl_cons]
    obtain ⟨h1, h2⟩ := ih (max a b)
    refine ⟨le_trans (le_max_left a b) h1, ?_⟩
    intro x hx
    rcases List.mem_cons.mp hx with rfl | hx'
    · exact le_trans (le_max_right a x) h1
    · exact h2 x hx'

/-- Every surviving row's month occurs among the dated rows' months. -/
theorem survivors_month_mem_dated (pairs : List (Cell × Cell)) :
    ∀ s ∈ survivorsOf pairs, s.1 ∈ (datedOf pairs).map Prod.fst := by
  induction pairs with
  | nil => simp [survivorsOf, datedOf]
  | cons p ps ih =>
    intro s hs
    cases hm : cellMonth? p.1 with
    | none =>
      have hsv : survivorsOf (p :: ps) = survivorsOf ps := by
        simp [survivorsOf, List.filterMap_cons, hm]
      have hdt : datedOf (p :: ps) = datedOf ps := by
        simp [datedOf, List.filterMap_cons, hm]
      rw [hsv] at hs
      rw [hdt]
      exact ih s hs
    | some m =>
      have hdt : datedOf (p :: ps) = (m, p.2) :: datedOf ps := by
        simp [datedOf, List.filterMap_cons, hm]
      rw [hdt]
      cases hn : cellNum? p.2 with
      | none =>
        have hsv : survivorsOf (p :: ps) = survivorsOf ps := by
          simp [survivorsOf, List.filterMap_cons, hm, hn]
        rw [hsv] at hs
        simp only [List.map_cons]
        exact List.mem_cons_of_mem _ (ih s hs)
      | some q =>
        have hsv : survivorsOf (p :: ps) = (m, q) :: survivorsOf ps := by
          simp [survivorsOf, List.filterMap_cons, hm, hn]
        rw [hsv] at hs
        simp only [List.map_cons]
        rcases List.mem_cons.mp hs with rfl | hs'
        · exact List.mem_cons_self _ _
        · exact List.mem_cons_of_mem _ (ih s hs')

/-- Inside one month's bin, the NaN-skipping values of the dated rows are
exactly the values of the rows that survive both coercions. -/
theorem dated_survivors_filter (pairs : List (Cell × Cell)) (M : Int) :
    ((datedOf pairs).filter (fun q => q.1 = M)).filterMap (fun q => cellNum? q.2)
      = ((survivorsOf pairs).filter (fun s => s.1 = M)).map Prod.snd := by
  induction pairs with
  | nil => rfl
  | cons p ps ih =>
    cases hm : cellMonth? p.1 with
    | none =>
      have hdt : datedOf (p :: ps) = datedOf ps := by
        simp [datedOf, List.filterMap_cons, hm]
      have hsv : survivorsOf (p :: ps) = survivorsOf ps := by
        simp [survivorsOf, List.filterMap_cons, hm]
      rw [hdt, hsv]
      exact ih
    | some m =>
      have hdt : datedOf (p :: ps) = (m, p.2) :: datedOf ps := by
        simp [datedOf, List.filterMap_cons, hm]
      cases hn : cellNum? p.2 with
      | none =>
        have hsv : survivorsOf (p :: ps) = survivorsOf ps := by
          simp [survivorsOf, List.filterMap_cons, hm, hn]
        rw [hdt, hsv]
        by_cases hM : m = M
        · rw [List.filter_cons_of_pos (by simp [hM]), List.filterMap_cons]
          simp only [hn]
          exact ih
        · rw [List.filter_cons_of_neg (by simp [hM])]
          exact ih
      | some q =>
        have hsv : survivorsOf (p :: ps) = (m, q) :: survivorsOf ps := by
          simp [survivorsOf, List.filterMap_cons, hm, hn]
        rw [hdt, hsv]
        by_cases hM : m = M
        · rw [List.filter_cons_of_pos (by simp [hM]), List.filter_cons_of_pos (by simp [hM]),
            List.filterMap_cons, List.map_cons]
          simp only [hn]
          rw [ih]
        · rw [List.filter_cons_of_neg (by simp [hM]), List.filter_cons_of_neg (by simp [hM])]
          exact ih

/-- Structural properties of monthly resampling: consecutive month labels
(chronological and gap-filled), each bin's mean taken over exactly the rows
surviving both coercions, and every surviving row's month represented. -/
theorem resample_props (pairs : List (Cell × Cell)) :
    (∀ i (h : i + 1 < (resampleMonthlyMean pairs).length),
        ((resampleMonthlyMean pairs).get ⟨i + 1, h⟩).1
          = ((resampleMonthlyMean pairs).get ⟨i, Nat.lt_of_succ_lt h⟩).1 + 1)
      ∧ (∀ p ∈ resampleMonthlyMean pairs,
          p.2 = meanOpt (((survivorsOf pairs).filter (fun s => s.1 = p.1)).map Prod.snd))
      ∧ (∀ s ∈ survivorsOf pairs, ∃ p ∈ resampleMonthlyMean pairs, p.1 = s.1) := by
  cases hd : (datedOf pairs).map Prod.fst with
  | nil =>
    have e1 : resampleMonthlyMean pairs = [] := by
      simp only [resampleMonthlyMean]
      rw [hd]
    rw [e1]
    refine ⟨?_, ?_, ?_⟩
    · intro i h
      simp at h
    · intro p hp
      simp at hp
    · intro s hs
      have := survivors_month_mem_dated pairs s hs
      rw [hd] at this
      simp at this
  | cons m0 ms =>
    have e2 : resampleMonthlyMean pairs
        = (List.range (ms.foldl max m0 - ms.foldl min m0 + 1).toNat).map
            (fun (k : Nat) => (ms.foldl min m0 + (k : Int),
              meanOpt (((datedOf pairs).filter
                  (fun p => p.1 = ms.foldl min m0 + (k : Int))).filterMap
                (fun p => cellNum? p.2)))) := by
      simp only [resampleMonthlyMean]
      rw [hd]
    rw [e2]
    refine ⟨?_, ?_, ?_⟩
    · intro i h
      rw [List.get_eq_getElem, List.get_eq_getElem, List.getElem_map, List.getElem_map,
        List.getElem_range, List.getElem_range]
      simp only
      push_cast
      ring
    · intro p hp
      obtain ⟨k, hk, rfl⟩ := List.mem_map.mp hp
      simp only
      rw [dated_survivors_filter]
    · intro s hs
      have hmem := survivors_month_mem_dated pairs s hs
      rw [hd] at hmem
      have hlo : ms.foldl min m0 ≤ s.1 := by
        rcases List.mem_cons.mp hmem with heq | hmm'
        · exact heq ▸ (foldl_min_le ms m0).1
        · exact (foldl_min_le ms m0).2 _ hmm'
      have hhi : s.1 ≤ ms.foldl max m0 := by
        rcases List.mem_cons.mp hmem with heq | hmm'
        · exact heq ▸ (le_foldl_max ms m0).1
        · exact (le_foldl_max ms m0).2 _ hmm'
      have hkmem : (s.1 - ms.foldl min m0).toNat
          ∈ List.range (ms.foldl max m0 - ms.foldl min m0 + 1).toNat := by
        rw [List.mem_range]
        omega
      refine ⟨_, List.mem_map_of_mem _ hkmem, ?_⟩
      simp only
      omega

/-- Assigning an existing column preserves table well-formedness. -/
theorem setCol_WF (t : Table) (c : String) (vals : List Cell) (hc : c ∈ t.cols)
    (hwf : Table.WF t) : Table.WF (setCol t c vals) := by
  obtain ⟨i, hi⟩ := indexOf?_isSome_of_mem hc
  unfold setCol
  rw [hi]
  intro r hr
  simp only at hr ⊢
  rw [List.mem_iff_getElem] at hr
  obtain ⟨k, hk, heq⟩ := hr
  rw [List.getElem_zipWith] at heq
  rw [← heq, List.length_set]
  exact hwf _ (List.getElem_mem _)

/-- C3 (amended): on a non-empty table where the date and value columns are
distinct, exist, and do not fail coercion wholesale, `plot_trend` resamples
the coerced series and plots, for every calendar month from the earliest to
the latest dated row (consecutive month labels — months with zero surviving
observations are *not* absent, they appear with an undefined mean, see the
counterexample), the arithmetic mean of the value column over exactly the
rows surviving both coercions, with every surviving row's month represented;
on the claim's concrete input `[("2024-01-15", 10), ("2024-01-20", 20),
("2024-02-01", 5)]` the output is `[(2024-01, 15.0), (2024-02, 5.0)]` as
claimed. -/
theorem plot_trend_spec (t : Table) (dc vc : String)
    (hdc : dc ∈ t.cols) (hvc : vc ∈ t.cols) (hne : dc ≠ vc) (hwf : Table.WF t)
    (hemp : t.isEmpty = false)
    (hdate : ((getCol t dc).map cellToDate).all (fun x => x.isMissing) = false)
    (hval : ((getCol t vc).map cellToNum).all (fun x => x.isMissing) = false) :
    (plot_trend t dc vc).1
        = TrendResult.ok (resampleMonthlyMean
            (((getCol t dc).map cellToDate).zip ((getCol t vc).map cellToNum)))
      ∧ (∀ i (h : i + 1 < (resampleMonthlyMean
              (((getCol t dc).map cellToDate).zip ((getCol t vc).map cellToNum))).length),
          ((resampleMonthlyMean
              (((getCol t dc).map cellToDate).zip ((getCol t vc).map cellToNum))).get
            ⟨i + 1, h⟩).1
            = ((resampleMonthlyMean
                (((getCol t dc).map cellToDate).zip ((getCol t vc).map cellToNum))).get
              ⟨i, Nat.lt_of_succ_lt h⟩).1 + 1)
      ∧ (∀ p ∈ resampleMonthlyMean
            (((getCol t dc).map cellToDate).zip ((getCol t vc).map cellToNum)),
          p.2 = meanOpt (((trendSurvivors t dc vc).filter (fun s => s.1 = p.1)).map Prod.snd))
      ∧ (∀ s ∈ trendSurvivors t dc vc,
          ∃ p ∈ resampleMonthlyMean
            (((getCol t dc).map cellToDate).zip ((getCol t vc).map cellToNum)), p.1 = s.1)
      ∧ (plot_trend ⟨["date", "value"],
            [[Cell.text "2024-01-15", Cell.num 10], [Cell.text "2024-01-20", Cell.num 20],
             [Cell.text "2024-02-01", Cell.num 5]]⟩ "date" "value").1
          = TrendResult.ok [(monthIdx 2024 1, some 15), (monthIdx 2024 2, some 5)] := by
  have hlen_d : ((getCol t dc).map cellToDate).length = t.rows.length := by
    rw [List.length_map, getCol_length t dc hdc]
  have hcols1 : (setCol t dc ((getCol t dc).map cellToDate)).cols = t.cols :=
    setCol_cols t dc _ hdc
  have hvc1 : vc ∈ (setCol t dc ((getCol t dc).map cellToDate)).cols := by
    rw [hcols1]; exact hvc
  have hveq : getCol (setCol t dc ((getCol t dc).map cellToDate)) vc = getCol t vc :=
    getCol_setCol_ne t dc vc _ hdc (Ne.symm hne) hlen_d
  have hval2 : ((getCol (setCol t dc ((getCol t dc).map cellToDate)) vc).map cellToNum).all
      (fun x => x.isMissing) = false := by rw [hveq]; exact hval
  have hlen_v : ((getCol (setCol t dc ((getCol t dc).map cellToDate)) vc).map cellToNum).length
      = (setCol t dc ((getCol t dc).map cellToDate)).rows.length := by
    rw [List.length_map, getCol_length _ vc hvc1]
  have hwf1 : Table.WF (setCol t dc ((getCol t dc).map cellToDate)) :=
    setCol_WF t dc _ hdc hwf
  have hdcol2 : getCol (setCol (setCol t dc ((getCol t dc).map cellToDate)) vc
        ((getCol (setCol t dc ((getCol t dc).map cellToDate)) vc).map cellToNum)) dc
      = (getCol t dc).map cellToDate := by
    rw [getCol_setCol_ne _ vc dc _ hvc1 hne hlen_v]
    exact getCol_setCol_self t dc _ hdc hlen_d hwf
  have hvcol2 : getCol (setCol (setCol t dc ((getCol t dc).map cellToDate)) vc
        ((getCol (setCol t dc ((getCol t dc).map cellToDate)) vc).map cellToNum)) vc
      = (getCol t vc).map cellToNum := by
    rw [getCol_setCol_self _ vc _ hvc1 hlen_v hwf1, hveq]
  have hok : (plot_trend t dc vc).1
      = TrendResult.ok (resampleMonthlyMean
          (((getCol t dc).map cellToDate).zip ((getCol t vc).map cellToNum))) := by
    simp only [plot_trend, hemp, Bool.not_false, if_true, hdate, Bool.false_eq_true, if_false,
      hval2]
    rw [hdcol2, hvcol2]
  refine ⟨hok, (resample_props _).1, (resample_props _).2.1, (resample_props _).2.2, ?_⟩
  have h1 : (plot_trend ⟨["date", "value"],
        [[Cell.text "2024-01-15", Cell.num 10], [Cell.text "2024-01-20", Cell.num 20],
         [Cell.text "2024-02-01", Cell.num 5]]⟩ "date" "value").1
      = TrendResult.ok (resampleMonthlyMean
          [(Cell.dval 2024 1 15, Cell.num 10), (Cell.dval 2024 1 20, Cell.num 20),
           (Cell.dval 2024 2 1, Cell.num 5)]) := rfl
  have h2 : resampleMonthlyMean
        [(Cell.dval 2024 1 15, Cell.num 10), (Cell.dval 2024 1 20, Cell.num 20),
         (Cell.dval 2024 2 1, Cell.num 5)]
      = [(monthIdx 2024 1, meanOpt [10, 20]), (monthIdx 2024 2, meanOpt [5])] := rfl
  rw [h1, h2]
  norm_num [meanOpt]

/-- C3 counterexample: with observations only in January and March 2024,
`resample("M")` produces an entry for February as well (with an undefined
mean), so months with zero observations are not absent from the output as
the claim states. -/
theorem plot_trend_gap_counterexample :
    (plot_trend ⟨["date", "value"],
        [[Cell.text "2024-01-15", Cell.num 10], [Cell.text "2024-03-01", Cell.num 5]]⟩
        "date" "value").1
        = TrendResult.ok
            [(monthIdx 2024 1, some 10), (monthIdx 2024 2, none), (monthIdx 2024 3, some 5)]
      ∧ (plot_trend ⟨["date", "value"],
          [[Cell.text "2024-01-15", Cell.num 10], [Cell.text "2024-03-01", Cell.num 5]]⟩
          "date" "value").1
          ≠ TrendResult.ok [(monthIdx 2024 1, some 10), (monthIdx 2024 3, some 5)] := by
  have hmain : (plot_trend ⟨["date", "value"],
      [[Cell.text "2024-01-15", Cell.num 10], [Cell.text "2024-03-01", Cell.num 5]]⟩
      "date" "value").1
      = TrendResult.ok
          [(monthIdx 2024 1, some 10), (monthIdx 2024 2, none), (monthIdx 2024 3, some 5)] := by
    have h1 : (plot_trend ⟨["date", "value"],
        [[Cell.text "2024-01-15", Cell.num 10], [Cell.text "2024-03-01", Cell.num 5]]⟩
        "date" "value").1
        = TrendResult.ok (resampleMonthlyMean
            [(Cell.dval 2024 1 15, Cell.num 10), (Cell.dval 2024 3 1, Cell.num 5)]) := rfl
    have h2 : resampleMonthlyMean
        [(Cell.dval 2024 1 15, Cell.num 10), (Cell.dval 2024 3 1, Cell.num 5)]
        = [(monthIdx 2024 1, meanOpt [10]), (monthIdx 2024 2, meanOpt []),
           (monthIdx 2024 3, meanOpt [5])] := rfl
    rw [h1, h2]
    norm_num [meanOpt]
  refine ⟨hmain, ?_⟩
  rw [hmain]
  decide

/-- Witness for C3: the amended theorem applied at the claim's own example
table. -/
theorem plot_trend_spec_witness :
    (plot_trend ⟨["date", "value"],
        [[Cell.text "2024-01-15", Cell.num 10], [Cell.text "2024-01-20", Cell.num 20],
         [Cell.text "2024-02-01", Cell.num 5]]⟩ "date" "value").1
      = TrendResult.ok [(monthIdx 2024 1, some 15), (monthIdx 2024 2, some 5)] :=
  (plot_trend_spec ⟨["date", "value"],
      [[Cell.text "2024-01-15", Cell.num 10], [Cell.text "2024-01-20", Cell.num 20],
       [Cell.text "2024-02-01", Cell.num 5]]⟩ "date" "value"
    (by decide) (by decide) (by decide) (by unfold Table.WF; decide) (by decide)
    (by decide) (by decide)).2.2.2.2

/-- Column `i` of a table as a cell list. -/
def colData (t : Table) (i : Nat) : List Cell :=
  t.rows.map (fun r => r.getD i Cell.missing)

/-- The indices of the numeric-dtype columns, `df.select_dtypes(include=[float, int])`. -/
def numericIdx (t : Table) : List Nat :=
  (List.range t.cols.length).filter (fun i => isNumericCol (colData t i))

/-- `correlation_matrix` from `dataapp.py`: when the numeric sub-frame is
empty (no numeric column, or no rows) it warns and returns nothing (`none`);
otherwise it computes and displays `numeric_df.corr()`, the Pearson pairwise
correlation matrix whose axes are the numeric columns (returned here as the
axis labels; the entries are the `corrS`/`corrSxx`/`corrSyy` moments below,
with entry `(i, j)` equal to `corrS / (sqrt corrSxx * sqrt corrSyy)`). -/
def correlation_matrix (t : Table) : Option (List String) :=
  if (numericIdx t).isEmpty || t.rows.isEmpty then none
  else some ((numericIdx t).map (fun i => t.cols.getD i ""))

/-- The (x, y) values of one row for columns `i` and `j`, when both are
present — pandas `corr` uses pairwise-complete observations. -/
def pairOf (i j : Nat) (r : List Cell) : Option (ℚ × ℚ) :=
  match cellNum? (r.getD i Cell.missing), cellNum? (r.getD j Cell.missing) with
  | some a, some b => some (a, b)
  | _, _ => none

/-- The pairwise-complete observations of columns `i` and `j`. -/
def pairObs (t : Table) (i j : Nat) : List (ℚ × ℚ) :=
  t.rows.filterMap (pairOf i j)

/-- Scaled covariance `n·Σxy − Σx·Σy` of the pairwise observations; the
Pearson correlation is `corrS / (√corrSxx · √corrSyy)`, which equals the
usual covariance/standard-deviation quotient because the `n` (or `n−1`)
normalisations cancel. -/
def corrS (t : Table) (i j : Nat) : ℚ :=
  ((pairObs t i j).length : ℚ) * ((pairObs t i j).map (fun x => x.1 * x.2)).sum
    - ((pairObs t i j).map Prod.fst).sum * ((pairObs t i j).map Prod.snd).sum

/-- Scaled variance `n·Σx² − (Σx)²` of the x-side of the pairwise
observations. -/
def corrSxx (t : Table) (i j : Nat) : ℚ :=
  ((pairObs t i j).length : ℚ) * ((pairObs t i j).map (fun x => x.1 * x.1)).sum
    - ((pairObs t i j).map Prod.fst).sum * ((pairObs t i j).map Prod.fst).sum

/-- Scaled variance `n·Σy² − (Σy)²` of the y-side of the pairwise
observations. -/
def corrSyy (t : Table) (i j : Nat) : ℚ :=
  ((pairObs t i j).length : ℚ) * ((pairObs t i j).map (fun x => x.2 * x.2)).sum
    - ((pairObs t i j).map Prod.snd).sum * ((pairObs t i j).map Prod.snd).sum

theorem pairOf_swap (i j : Nat) (r : List Cell) :
    pairOf j i r = (pairOf i j r).map (fun x => (x.2, x.1)) := by
  unfold pairOf
  cases cellNum? (r.getD i Cell.missing) <;> cases cellNum? (r.getD j Cell.missing) <;> rfl

theorem pairObs_swap (t : Table) (i j : Nat) :
    pairObs t j i = (pairObs t i j).map (fun x => (x.2, x.1)) := by
  unfold pairObs
  rw [List.map_filterMap]
  apply List.filterMap_congr
  intro r _
  exact pairOf_swap i j r

/-- The scaled covariance is symmetric, and the two variance sides swap. -/
theorem corrS_symm (t : Table) (i j : Nat) :
    corrS t i j = corrS t j i ∧ corrSxx t i j = corrSyy t j i := by
  constructor
  · unfold corrS
    rw [pairObs_swap t i j, List.length_map, List.map_map, List.map_map, List.map_map]
    have h1 : ((fun x : ℚ × ℚ => x.1 * x.2) ∘ fun x : ℚ × ℚ => (x.2, x.1))
        = fun x : ℚ × ℚ => x.1 * x.2 := by
      funext x
      exact mul_comm x.2 x.1
    have h2 : (Prod.fst ∘ fun x : ℚ × ℚ => (x.2, x.1)) = (Prod.snd : ℚ × ℚ → ℚ) := rfl
    have h3 : (Prod.snd ∘ fun x : ℚ × ℚ => (x.2, x.1)) = (Prod.fst : ℚ × ℚ → ℚ) := rfl
    rw [h1, h2, h3]
    ring
  · unfold corrSxx corrSyy
    rw [pairObs_swap t i j, List.length_map, List.map_map, List.map_map]
    have h1 : ((fun x : ℚ × ℚ => x.2 * x.2) ∘ fun x : ℚ × ℚ => (x.2, x.1))
        = fun x : ℚ × ℚ => x.1 * x.1 := rfl
    have h2 : (Prod.snd ∘ fun x : ℚ × ℚ => (x.2, x.1)) = (Prod.fst : ℚ × ℚ → ℚ) := rfl
    rw [h1, h2]

theorem pairObs_diag_eq (t : Table) (i : Nat) :
    ∀ x ∈ pairObs t i i, x.1 = x.2 := by
  intro x hx
  unfold pairObs at hx
  obtain ⟨r, _, hr⟩ := List.mem_filterMap.mp hx
  unfold pairOf at hr
  cases hc : cellNum? (r.getD i Cell.missing) with
  | none => rw [hc] at hr; simp at hr
  | some a =>
    rw [hc] at hr
    simp at hr
    rw [← hr]

/-- On the diagonal the covariance equals both variances. -/
theorem corrS_diag (t : Table) (i : Nat) :
    corrS t i i = corrSxx t i i ∧ corrSyy t i i = corrSxx t i i := by
  have hmap : ∀ x ∈ pairObs t i i, x.1 * x.2 = x.1 * x.1 := by
    intro x hx
    rw [← pairObs_diag_eq t i x hx]
  have hsnd : ∀ x ∈ pairObs t i i, (Prod.snd x : ℚ) = Prod.fst x := by
    intro x hx
    rw [← pairObs_diag_eq t i x hx]
  have hmap2 : ∀ x ∈ pairObs t i i, x.2 * x.2 = x.1 * x.1 := by
    intro x hx
    rw [← pairObs_diag_eq t i x hx]
  constructor
  · unfold corrS corrSxx
    rw [List.map_congr_left hmap, List.map_congr_left hsnd]
  · unfold corrSyy corrSxx
    rw [List.map_congr_left hmap2, List.map_congr_left hsnd]

theorem sq_le_of_scaled (N S X Y : ℚ) (hN : 0 < N) (h : (N * S) ^ 2 ≤ (N * X) * (N * Y)) :
    S ^ 2 ≤ X * Y := by
  have h2 : N ^ 2 * S ^ 2 ≤ N ^ 2 * (X * Y) := by nlinarith [h]
  exact le_of_mul_le_mul_left h2 (pow_pos hN 2)

theorem list_sum_eq_range_sum (l : List ℚ) :
    l.sum = ∑ k ∈ Finset.range l.length, l.getD k 0 := by
  induction l with
  | nil => simp
  | cons x xs ih =>
    rw [List.sum_cons, ih, List.length_cons, Finset.sum_range_succ']
    simp [List.getD_cons_succ, List.getD_cons_zero]
    ring

theorem getD_map_pair (f : ℚ × ℚ → ℚ) (hf : f (0, 0) = 0) (l : List (ℚ × ℚ)) (k : Nat) :
    (l.map f).getD k 0 = f (l.getD k (0, 0)) := by
  rw [List.getD_eq_getElem?_getD, List.getD_eq_getElem?_getD, List.getElem?_map]
  cases l[k]? with
  | none => simpa using hf.symm
  | some a => rfl

theorem map_sum_eq_range_sum (f : ℚ × ℚ → ℚ) (hf : f (0, 0) = 0) (l : List (ℚ × ℚ)) :
    (l.map f).sum = ∑ k ∈ Finset.range l.length, f (l.getD k (0, 0)) := by
  rw [list_sum_eq_range_sum, List.length_map]
  exact Finset.sum_congr rfl (fun k _ => getD_map_pair f hf l k)

/-- Cauchy–Schwarz for the scaled moments of a list of pairs: the squared
scaled covariance is at most the product of the scaled variances. -/
theorem list_cs (p : List (ℚ × ℚ)) :
    ((p.length : ℚ) * (p.map (fun x => x.1 * x.2)).sum
        - (p.map Prod.fst).sum * (p.map Prod.snd).sum) ^ 2
      ≤ ((p.length : ℚ) * (p.map (fun x => x.1 * x.1)).sum
          - (p.map Prod.fst).sum * (p.map Prod.fst).sum)
        * ((p.length : ℚ) * (p.map (fun x => x.2 * x.2)).sum
          - (p.map Prod.snd).sum * (p.map Prod.snd).sum) := by
  rcases Nat.eq_zero_or_pos p.length with hN | hN
  · rw [List.length_eq_zero] at hN
    subst hN
    simp
  · have hSf := map_sum_eq_range_sum Prod.fst rfl p
    have hSg := map_sum_eq_range_sum Prod.snd rfl p
    have hSfg := map_sum_eq_range_sum (fun x => x.1 * x.2) (mul_zero 0) p
    have hSff := map_sum_eq_range_sum (fun x => x.1 * x.1) (mul_zero 0) p
    have hSgg := map_sum_eq_range_sum (fun x => x.2 * x.2) (mul_zero 0) p
    rw [hSf, hSg, hSfg, hSff, hSgg]
    have hcs := Finset.sum_mul_sq_le_sq_mul_sq (Finset.range p.length)
      (fun k => (p.length : ℚ) * (p.getD k (0, 0)).1
        - ∑ k ∈ Finset.range p.length, (p.getD k (0, 0)).1)
      (fun k => (p.length : ℚ) * (p.getD k (0, 0)).2
        - ∑ k ∈ Finset.range p.length, (p.getD k (0, 0)).2)
    have hAB : ∑ k ∈ Finset.range p.length,
        (((p.length : ℚ) * (p.getD k (0, 0)).1
            - ∑ k ∈ Finset.range p.length, (p.getD k (0, 0)).1)
          * ((p.length : ℚ) * (p.getD k (0, 0)).2
            - ∑ k ∈ Finset.range p.length, (p.getD k (0, 0)).2))
        = (p.length : ℚ) * ((p.length : ℚ)
              * (∑ k ∈ Finset.range p.length, (p.getD k (0, 0)).1 * (p.getD k (0, 0)).2)
            - (∑ k ∈ Finset.range p.length, (p.getD k (0, 0)).1)
              * ∑ k ∈ Finset.range p.length, (p.getD k (0, 0)).2) := by
      rw [Finset.sum_congr rfl (fun k _ => show _ = ((p.length : ℚ) ^ 2
          * ((p.getD k (0, 0)).1 * (p.getD k (0, 0)).2)
          - ((p.length : ℚ) * ∑ k ∈ Finset.range p.length, (p.getD k (0, 0)).2)
            * (p.getD k (0, 0)).1
          - ((p.length : ℚ) * ∑ k ∈ Finset.range p.length, (p.getD k (0, 0)).1)
            * (p.getD k (0, 0)).2
          + (∑ k ∈ Finset.range p.length, (p.getD k (0, 0)).1)
            * ∑ k ∈ Finset.range p.length, (p.getD k (0, 0)).2) from by ring)]
      rw [Finset.sum_add_distrib, Finset.sum_sub_distrib, Finset.sum_sub_distrib,
        ← Finset.mul_sum, ← Finset.mul_sum, ← Finset.mul_sum, Finset.sum_const,
        Finset.card_range, nsmul_eq_mul]
      ring
    have hA2 : ∑ k ∈ Finset.range p.length,
        ((p.length : ℚ) * (p.getD k (0, 0)).1
          - ∑ k ∈ Finset.range p.length, (p.getD k (0, 0)).1) ^ 2
        = (p.length : ℚ) * ((p.length : ℚ)
              * (∑ k ∈ Finset.range p.length, (p.getD k (0, 0)).1 * (p.getD k (0, 0)).1)
            - (∑ k ∈ Finset.range p.length, (p.getD k (0, 0)).1)
              * ∑ k ∈ Finset.range p.length, (p.getD k (0, 0)).1) := by
      rw [Finset.sum_congr rfl (fun k _ => show _ = ((p.length : ℚ) ^ 2
          * ((p.getD k (0, 0)).1 * (p.getD k (0, 0)).1)
          - ((p.length : ℚ) * ∑ k ∈ Finset.range p.length, (p.getD k (0, 0)).1)
            * (p.getD k (0, 0)).1
          - ((p.length : ℚ) * ∑ k ∈ Finset.range p.length, (p.getD k (0, 0)).1)
            * (p.getD k (0, 0)).1
          + (∑ k ∈ Finset.range p.length, (p.getD k (0, 0)).1)
            * ∑ k ∈ Finset.range p.length, (p.getD k (0, 0)).1) from by ring)]
      rw [Finset.sum_add_distrib, Finset.sum_sub_distrib, Finset.sum_sub_distrib,
        ← Finset.mul_sum, ← Finset.mul_sum, ← Finset.mul_sum, Finset.sum_const,
        Finset.card_range, nsmul_eq_mul]
      ring
    have hB2 : ∑ k ∈ Finset.range p.length,
        ((p.length : ℚ) * (p.getD k (0, 0)).2
          - ∑ k ∈ Finset.range p.length, (p.getD k (0, 0)).2) ^ 2
        = (p.length : ℚ) * ((p.length : ℚ)
              * (∑ k ∈ Finset.range p.length, (p.getD k (0, 0)).2 * (p.getD k (0, 0)).2)
            - (∑ k ∈ Finset.range p.length, (p.getD k (0, 0)).2)
              * ∑ k ∈ Finset.range p.length, (p.getD k (0, 0)).2) := by
      rw [Finset.sum_congr rfl (fun k _ => show _ = ((p.length : ℚ) ^ 2
          * ((p.getD k (0, 0)).2 * (p.getD k (0, 0)).2)
          - ((p.length : ℚ) * ∑ k ∈ Finset.range p.length, (p.getD k (0, 0)).2)
            * (p.getD k (0, 0)).2
          - ((p.length : ℚ) * ∑ k ∈ Finset.range p.length, (p.getD k (0, 0)).2)
            * (p.getD k (0, 0)).2
          + (∑ k ∈ Finset.range p.length, (p.getD k (0, 0)).2)
            * ∑ k ∈ Finset.range p.length, (p.getD k (0, 0)).2) from by ring)]
      rw [Finset.sum_add_distrib, Finset.sum_sub_distrib, Finset.sum_sub_distrib,
        ← Finset.mul_sum, ← Finset.mul_sum, ← Finset.mul_sum, Finset.sum_const,
        Finset.card_range, nsmul_eq_mul]
      ring
    rw [hAB, hA2, hB2] at hcs
    have hNpos : (0 : ℚ) < (p.length : ℚ) := by
      exact_mod_cast hN
    exact sq_le_of_scaled _ _ _ _ hNpos hcs

/-- Cauchy–Schwarz for the correlation moments. -/
theorem corr_cs (t : Table) (i j : Nat) :
    corrS t i j ^ 2 ≤ corrSxx t i j * corrSyy t i j := by
  unfold corrS corrSxx corrSyy
  exact list_cs (pairObs t i j)

/-- C7 (amended): `correlation_matrix` warns and returns nothing exactly
when the numeric sub-frame is empty — no numeric columns, or no rows; in
particular one single numeric column does *not* trigger the warning (a 1×1
matrix is displayed, see the counterexample).  Otherwise the displayed
matrix is the Pearson pairwise correlation matrix over exactly the numeric
columns; writing entry (i, j) as `corrS/(√corrSxx·√corrSyy)` over the
pairwise-complete observations, the matrix is symmetric, its diagonal entry
is exactly 1 for any column with nonzero variance, and every defined entry
(both variances nonzero) lies in [−1, 1]. -/
theorem correlation_matrix_spec (t : Table) (i j : Nat) :
    (correlation_matrix t = none ↔ (numericIdx t = [] ∨ t.rows = []))
      ∧ (correlation_matrix t ≠ none
          → correlation_matrix t = some ((numericIdx t).map (fun k => t.cols.getD k "")))
      ∧ ((corrS t i j : ℝ) / (Real.sqrt (corrSxx t i j) * Real.sqrt (corrSyy t i j))
          = (corrS t j i : ℝ) / (Real.sqrt (corrSxx t j i) * Real.sqrt (corrSyy t j i)))
      ∧ (0 < corrSxx t i i
          → (corrS t i i : ℝ) / (Real.sqrt (corrSxx t i i) * Real.sqrt (corrSyy t i i)) = 1)
      ∧ (0 < corrSxx t i j → 0 < corrSyy t i j
          → -1 ≤ (corrS t i j : ℝ) / (Real.sqrt (corrSxx t i j) * Real.sqrt (corrSyy t i j))
            ∧ (corrS t i j : ℝ) / (Real.sqrt (corrSxx t i j) * Real.sqrt (corrSyy t i j)) ≤ 1) := by
  refine ⟨?_, ?_, ?_, ?_, ?_⟩
  · unfold correlation_matrix
    split_ifs with h
    · simp only [true_iff]
      rcases Bool.or_eq_true_iff.mp h with h1 | h1
      · exact Or.inl (List.isEmpty_eq_true.mp h1)
      · exact Or.inr (List.isEmpty_eq_true.mp h1)
    · simp only [reduceCtorEq, false_iff]
      intro hc
      apply h
      rcases hc with h1 | h1
      · rw [h1]
        simp
      · rw [h1]
        simp
  · unfold correlation_matrix
    split_ifs with h
    · intro hc
      exact absurd rfl hc
    · intro _
      rfl
  · obtain ⟨h1, h2⟩ := corrS_symm t i j
    have h3 : corrSyy t i j = corrSxx t j i := ((corrS_symm t j i).2).symm
    rw [h1, h2, h3, mul_comm]
  · intro hxx
    obtain ⟨hS, hY⟩ := corrS_diag t i
    rw [hS, hY]
    have hpos : (0 : ℝ) < (corrSxx t i i : ℝ) := by exact_mod_cast hxx
    rw [Real.mul_self_sqrt (le_of_lt hpos)]
    exact div_self (ne_of_gt hpos)
  · intro hxx hyy
    have hq := corr_cs t i j
    have hR : ((corrS t i j : ℝ)) ^ 2 ≤ (corrSxx t i j : ℝ) * (corrSyy t i j : ℝ) := by
      exact_mod_cast hq
    have hXpos : (0 : ℝ) < (corrSxx t i j : ℝ) := by exact_mod_cast hxx
    have hYpos : (0 : ℝ) < (corrSyy t i j : ℝ) := by exact_mod_cast hyy
    have hD : (0 : ℝ) < Real.sqrt (corrSxx t i j) * Real.sqrt (corrSyy t i j) :=
      mul_pos (Real.sqrt_pos.mpr hXpos) (Real.sqrt_pos.mpr hYpos)
    have habs : |(corrS t i j : ℝ)|
        ≤ Real.sqrt ((corrSxx t i j : ℝ) * (corrSyy t i j : ℝ)) := by
      rw [← Real.sqrt_sq_eq_abs]
      exact Real.sqrt_le_sqrt hR
    rw [Real.sqrt_mul (le_of_lt hXpos)] at habs
    obtain ⟨hlo, hhi⟩ := abs_le.mp habs
    constructor
    · rw [le_div_iff hD]
      linarith
    · rw [div_le_one hD]
      exact hhi

/-- C7 counterexample: on a table with exactly one numeric column the code
does not warn — `numeric_df` is non-empty, so a (1×1) correlation matrix is
produced, contradicting the claim that fewer than 2 numeric columns yield a
warning and no matrix. -/
theorem correlation_matrix_single_counterexample :
    correlation_matrix ⟨["a", "b"], [[Cell.num 1, Cell.text "x"], [Cell.num 2, Cell.text "y"]]⟩
        = some ["a"]
      ∧ (numericIdx ⟨["a", "b"], [[Cell.num 1, Cell.text "x"], [Cell.num 2, Cell.text "y"]]⟩).length
          = 1
      ∧ correlation_matrix ⟨["a", "b"], [[Cell.num 1, Cell.text "x"], [Cell.num 2, Cell.text "y"]]⟩
          ≠ none := by decide

/-- Witness for C7 at a two-column numeric table with nonzero variances. -/
theorem correlation_matrix_spec_witness :
    (correlation_matrix ⟨["a", "b"], [[Cell.num 1, Cell.num 2], [Cell.num 2, Cell.num 4]]⟩ = none
        ↔ (numericIdx ⟨["a", "b"], [[Cell.num 1, Cell.num 2], [Cell.num 2, Cell.num 4]]⟩ = []
            ∨ (Table.mk ["a", "b"] [[Cell.num 1, Cell.num 2], [Cell.num 2, Cell.num 4]]).rows = []))
      ∧ ((corrS ⟨["a", "b"], [[Cell.num 1, Cell.num 2], [Cell.num 2, Cell.num 4]]⟩ 0 0 : ℝ)
            / (Real.sqrt (corrSxx ⟨["a", "b"], [[Cell.num 1, Cell.num 2], [Cell.num 2, Cell.num 4]]⟩ 0 0)
              * Real.sqrt (corrSyy ⟨["a", "b"], [[Cell.num 1, Cell.num 2], [Cell.num 2, Cell.num 4]]⟩ 0 0))
          = 1)
      ∧ (-1 ≤ (corrS ⟨["a", "b"], [[Cell.num 1, Cell.num 2], [Cell.num 2, Cell.num 4]]⟩ 0 1 : ℝ)
            / (Real.sqrt (corrSxx ⟨["a", "b"], [[Cell.num 1, Cell.num 2], [Cell.num 2, Cell.num 4]]⟩ 0 1)
              * Real.sqrt (corrSyy ⟨["a", "b"], [[Cell.num 1, Cell.num 2], [Cell.num 2, Cell.num 4]]⟩ 0 1))
          ∧ (corrS ⟨["a", "b"], [[Cell.num 1, Cell.num 2], [Cell.num 2, Cell.num 4]]⟩ 0 1 : ℝ)
            / (Real.sqrt (corrSxx ⟨["a", "b"], [[Cell.num 1, Cell.num 2], [Cell.num 2, Cell.num 4]]⟩ 0 1)
              * Real.sqrt (corrSyy ⟨["a", "b"], [[Cell.num 1, Cell.num 2], [Cell.num 2, Cell.num 4]]⟩ 0 1))
            ≤ 1) :=
  ⟨(correlation_matrix_spec ⟨["a", "b"], [[Cell.num 1, Cell.num 2], [Cell.num 2, Cell.num 4]]⟩ 0 1).1,
   (correlation_matrix_spec ⟨["a", "b"], [[Cell.num 1, Cell.num 2], [Cell.num 2, Cell.num 4]]⟩ 0 1).2.2.2.1
     (by norm_num [corrSxx, pairObs, pairOf, cellNum?, List.filterMap_cons]),
   (correlation_matrix_spec ⟨["a", "b"], [[Cell.num 1, Cell.num 2], [Cell.num 2, Cell.num 4]]⟩ 0 1).2.2.2.2
     (by norm_num [corrSxx, pairObs, pairOf, cellNum?, List.filterMap_cons])
     (by norm_num [corrSyy, pairObs, pairOf, cellNum?, List.filterMap_cons])⟩
